import Mathlib

/-!
Verification development for the virtual filesystem path resolver and
file-operation executor of the omni-explorer Electron main process
(`electron/main.mjs`).

JavaScript strings are modelled by Lean `String` (lists of characters);
`path.sep` is the Windows separator. Node's `path.join` is modelled as
separator interleaving (dot-segment normalization is not modelled — no
property below depends on it), and `path.resolve` is kept abstract as a
parameter `presolve`, since the properties below quantify over resolved
absolute paths.
-/

namespace OmniExplorer

/-! ## String and path primitives -/

/-- Windows path separator character (`path.sep`). -/
def pathSepChar : Char := '\\'

/-- Windows path separator string (`path.sep`). -/
def pathSep : String := "\\"

/-- JS `String.prototype.startsWith`, on the character lists. -/
def strHasPrefix (s p : String) : Bool := p.data.isPrefixOf s.data

/-- JS `String.prototype.endsWith('/')` specialised to one character. -/
def endsWithSlash (s : String) : Bool := s.data.getLast? = some '/'

/-- JS `s.slice(n)` (drop the first `n` characters). -/
def strDrop (s : String) (n : Nat) : String := ⟨s.data.drop n⟩

/-- JS `s.slice(0, -1)` (drop the last character). -/
def dropRight1 (s : String) : String := ⟨s.data.dropLast⟩

/-- Worker of `splitOnChar`, carrying the reversed current piece. -/
def splitOnCharAux (sep : Char) : List Char → List Char → List String
  | acc, [] => [⟨acc.reverse⟩]
  | acc, c :: rest =>
    if c = sep then ⟨acc.reverse⟩ :: splitOnCharAux sep [] rest
    else splitOnCharAux sep (c :: acc) rest

/-- JS `s.split(sep)` for a one-character separator: `"" ↦ [""]`,
adjacent separators produce empty pieces. -/
def splitOnChar (sep : Char) (s : String) : List String :=
  splitOnCharAux sep [] s.data

/-- Worker of `sanitizeChars`: the flag records whether the previous
character was a backslash (so a continuing run emits nothing). -/
def sanitizeAux : Bool → List Char → List Char
  | _, [] => []
  | prevBs, c :: rest =>
    if c = pathSepChar then
      if prevBs then sanitizeAux true rest else '/' :: sanitizeAux true rest
    else c :: sanitizeAux false rest

/-- `sanitizeVirtualPath`: the regex replace `/\\+/g → '/'` collapses every
run of backslashes to a single forward slash. -/
def sanitizeChars (l : List Char) : List Char := sanitizeAux false l

/-- `sanitizeVirtualPath(virtualPath)` from `main.mjs`. -/
def sanitizeVirtualPath (virtualPath : String) : String := ⟨sanitizeChars virtualPath.data⟩

/-- `normalizeVirtualFolder(virtual)` from `main.mjs`. -/
def normalizeVirtualFolder (virtual : String) : String :=
  if endsWithSlash virtual then virtual else virtual ++ "/"

/-- Node `path.join(a, b)` for a single extra component: inserts the
separator unless `a` already ends with it.  The joined components below
never contain separators themselves, so no normalization is needed. -/
def pathJoin1 (a b : String) : String :=
  if a.data.getLast? = some pathSepChar then a ++ b else a ++ pathSep ++ b

/-- Node `path.join(base, ...segments)`. -/
def pathJoinList (base : String) (segments : List String) : String :=
  segments.foldl pathJoin1 base

/-- Node `path.basename`: last component, ignoring trailing separators. -/
def basename (p : String) : String :=
  let r := p.data.reverse.dropWhile (· = pathSepChar)
  ⟨(r.takeWhile (· ≠ pathSepChar)).reverse⟩

/-- Node `path.dirname`, simplified to the POSIX-style rule (everything
before the last separator); drive-root edge cases are not modelled — no
property below depends on the exact value. -/
def dirname (p : String) : String :=
  let rev := p.data.reverse
  match rev.dropWhile (· ≠ pathSepChar) with
  | [] => "."
  | _ :: r => if r = [] then pathSep else ⟨r.reverse⟩

/-! ## IdentifierScheme: `createIdForPath` (SHA-1 of the UTF-8 path bytes,
hex encoded), translated from `crypto.createHash('sha1')`. -/

/-- UTF-8 encoding of one character, as byte values. -/
def utf8Char (c : Char) : List Nat :=
  let n := c.toNat
  if n < 128 then [n]
  else if n < 2048 then [192 + n / 64, 128 + n % 64]
  else if n < 65536 then [224 + n / 4096, 128 + (n / 64) % 64, 128 + n % 64]
  else [240 + n / 262144, 128 + (n / 4096) % 64, 128 + (n / 64) % 64, 128 + n % 64]

/-- UTF-8 encoding of a string, as byte values. -/
def utf8Bytes (s : String) : List Nat := s.data.flatMap utf8Char

/-- Truncation to 32 bits. -/
def w32 (n : Nat) : Nat := n % 4294967296

/-- 32-bit left rotation (argument assumed < 2^32). -/
def rotl (n s : Nat) : Nat := w32 (n * 2 ^ s) + n / 2 ^ (32 - s)

/-- Big-endian bytes of `n`, `width` bytes wide. -/
def bytesBE : Nat → Nat → List Nat
  | 0, _ => []
  | w + 1, n => bytesBE w (n / 256) ++ [n % 256]

/-- SHA-1 message padding: `0x80`, zeros to 56 mod 64, 64-bit bit length. -/
def sha1Pad (msg : List Nat) : List Nat :=
  let zeros := (119 - msg.length % 64) % 64
  msg ++ [128] ++ List.replicate zeros 0 ++ bytesBE 8 (8 * msg.length)

/-- Split a byte list into 64-byte chunks. -/
def chunk64 (l : List Nat) : List (List Nat) :=
  if l = [] then [] else l.take 64 :: chunk64 (l.drop 64)
termination_by l.length
decreasing_by
  simp only [List.length_drop]
  have : l.length ≠ 0 := by simpa [List.length_eq_zero] using ‹l ≠ []›
  omega

/-- Big-endian 32-bit words from bytes. -/
def bytesToWords : List Nat → List Nat
  | b0 :: b1 :: b2 :: b3 :: rest => (((b0 * 256 + b1) * 256 + b2) * 256 + b3) :: bytesToWords rest
  | _ => []

/-- SHA-1 message-schedule extension step, iterated `n` times. -/
def extendWords (ws : List Nat) : Nat → List Nat
  | 0 => ws
  | k + 1 =>
    let i := ws.length
    extendWords
      (ws ++ [rotl (((ws.getD (i - 3) 0 ^^^ ws.getD (i - 8) 0) ^^^ ws.getD (i - 14) 0) ^^^ ws.getD (i - 16) 0) 1])
      k

/-- One SHA-1 round: state `(a,b,c,d,e)`, round index `i`, schedule word `wi`. -/
def sha1Round (st : Nat × Nat × Nat × Nat × Nat) (iw : Nat × Nat) : Nat × Nat × Nat × Nat × Nat :=
  let (a, b, c, d, e) := st
  let (i, wi) := iw
  let nb : Nat := b ^^^ 4294967295
  let f : Nat :=
    if i < 20 then (b &&& c) ||| (nb &&& d)
    else if i < 40 then (b ^^^ c) ^^^ d
    else if i < 60 then ((b &&& c) ||| (b &&& d)) ||| (c &&& d)
    else (b ^^^ c) ^^^ d
  let k : Nat :=
    if i < 20 then 1518500249
    else if i < 40 then 1859775393
    else if i < 60 then 2400959708
    else 3395469782
  (w32 (rotl a 5 + f + e + k + wi), a, rotl b 30, c, d)

/-- SHA-1 compression of one 64-byte chunk into the running state. -/
def sha1Chunk (h : Nat × Nat × Nat × Nat × Nat) (chunk : List Nat) : Nat × Nat × Nat × Nat × Nat :=
  let ws := extendWords (bytesToWords chunk) 64
  let (h0, h1, h2, h3, h4) := h
  let (a, b, c, d, e) := ws.enum.foldl sha1Round h
  (w32 (h0 + a), w32 (h1 + b), w32 (h2 + c), w32 (h3 + d), w32 (h4 + e))

/-- SHA-1 digest of a byte message, as a single 160-bit natural number. -/
def sha1Digest (msg : List Nat) : Nat :=
  let (h0, h1, h2, h3, h4) :=
    (chunk64 (sha1Pad msg)).foldl sha1Chunk
      (1732584193, 4023233417, 2562383102, 271733878, 3285377520)
  (((h0 * 4294967296 + h1) * 4294967296 + h2) * 4294967296 + h3) * 4294967296 + h4

/-- Lower-case hex digit for `n < 16`. -/
def hexDigitChar (n : Nat) : Char :=
  if n < 10 then Char.ofNat (48 + n) else Char.ofNat (87 + n)

/-- Fixed-width big-endian hex rendering. -/
def toHexFixed : Nat → Nat → List Char
  | 0, _ => []
  | w + 1, n => toHexFixed w (n / 16) ++ [hexDigitChar (n % 16)]

/-- `createIdForPath(virtualPath)`: hex-encoded SHA-1 of the UTF-8 path. -/
def createIdForPath (virtualPath : String) : String :=
  ⟨toHexFixed 40 (sha1Digest (utf8Bytes virtualPath))⟩

/-! ## VirtualPathResolver: `resolveLocalVirtualPath` -/

/-- A special folder row of the `specialFolders` table. -/
structure SpecialFolder where
  label : String
  virtual : String
  fsPath : String
deriving DecidableEq

/-- The `specialFolders` table, parametrised by `os.homedir()`. -/
def specialFolders (homedir : String) : List SpecialFolder :=
  [⟨"Desktop", "local://Desktop/", pathJoin1 homedir "Desktop"⟩,
   ⟨"Documents", "local://Documents/", pathJoin1 homedir "Documents"⟩,
   ⟨"Downloads", "local://Downloads/", pathJoin1 homedir "Downloads"⟩,
   ⟨"Music", "local://Music/", pathJoin1 homedir "Music"⟩,
   ⟨"Pictures", "local://Pictures/", pathJoin1 homedir "Pictures"⟩,
   ⟨"Videos", "local://Videos/", pathJoin1 homedir "Videos"⟩]

/-- The result variants of `resolveLocalVirtualPath`. -/
inductive ResolvedLocation where
  | root
  | drives
  | entry (fsPath : String) (isDirectory : Bool) (baseVirtual : String)
deriving DecidableEq

/-- The error messages `resolveLocalVirtualPath` can throw. -/
inductive ResolveError where
  | unsupportedScheme (p : String)
  | unknownDrive (displayName : String)
  | unsupportedLocal (p : String)
deriving DecidableEq

/-- Is `c` an ASCII letter (the `[A-Z]` class with the `i` flag)? -/
def isAsciiLetter (c : Char) : Bool :=
  ('A' ≤ c && c ≤ 'Z') || ('a' ≤ c && c ≤ 'z')

/-- First match of the regex `/\(([A-Z]):\)/i` in a character list:
the captured letter of the first `"(X:)"` occurrence. -/
def findDriveLetter : List Char → Option Char
  | [] => none
  | '(' :: rest =>
    (match rest with
     | c :: ':' :: ')' :: _ => if isAsciiLetter c then some c else none
     | _ => none).orElse (fun _ => findDriveLetter rest)
  | _ :: rest => findDriveLetter rest

/-- `ensureDriveLetter(displayName)`: look the display name up in the alias
map, else derive the drive letter from a `"(X:)"` suffix.  The alias-map
insertion is bookkeeping only (the map is append-only and a key's value
never changes), so the map is threaded as a read-only association list. -/
def ensureDriveLetter (aliasMap : List (String × String)) (displayName : String) : Option String :=
  match aliasMap.lookup displayName with
  | some letter => some letter
  | none => (findDriveLetter displayName.data).map (fun c => ⟨[c.toUpper, ':']⟩)

/-- Match of `/^local:\/\/This PC\/([^/]+)\/?(.*)$/` against `s`:
returns the display name (first capture) and the remainder (second). -/
def driveMatch (s : String) : Option (String × String) :=
  if strHasPrefix s "local://This PC/" then
    let after := s.data.drop 16
    let displayName := after.takeWhile (· ≠ '/')
    if displayName = [] then none
    else
      let remainder :=
        match after.dropWhile (· ≠ '/') with
        | '/' :: r => r
        | r => r
      some (⟨displayName⟩, ⟨remainder⟩)
  else none

/-- The special-folder loop inside `resolveLocalVirtualPath`: try each
folder in table order, first the exact-match test, then the nested-path
test. -/
def findSpecialMatch (asDirectory : Bool) (sanitized : String) :
    List SpecialFolder → Option ResolvedLocation
  | [] => none
  | folder :: rest =>
    let base := normalizeVirtualFolder folder.virtual
    if sanitized = base ∨ sanitized = dropRight1 base then
      some (.entry folder.fsPath true base)
    else if strHasPrefix sanitized base then
      let relative := strDrop sanitized base.data.length
      let segments := (splitOnChar '/' relative).filter (· ≠ "")
      some (.entry (pathJoinList folder.fsPath segments) (asDirectory || segments.isEmpty) base)
    else findSpecialMatch asDirectory sanitized rest

/-- `resolveLocalVirtualPath(virtualPath)` from `main.mjs`, parametrised by
`os.homedir()` and the current drive-alias map. -/
def resolveLocalVirtualPath (homedir : String) (aliasMap : List (String × String))
    (virtualPath : String) : Except ResolveError ResolvedLocation :=
  let sanitized := sanitizeVirtualPath virtualPath
  if ¬ strHasPrefix sanitized "local://" then .error (.unsupportedScheme virtualPath)
  else if sanitized = "local://" then .ok .root
  else if sanitized = "local://This PC/" ∨ sanitized = "local://This PC" then .ok .drives
  else
    let asDirectory := endsWithSlash sanitized
    match findSpecialMatch asDirectory sanitized (specialFolders homedir) with
    | some loc => .ok loc
    | none =>
      match driveMatch sanitized with
      | some (displayName, remainder) =>
        match ensureDriveLetter aliasMap displayName with
        | none => .error (.unknownDrive displayName)
        | some driveLetter =>
          let segments := (splitOnChar '/' remainder).filter (· ≠ "")
          let fsPath := pathJoinList (driveLetter ++ pathSep) segments
          .ok (.entry fsPath (asDirectory || segments.isEmpty)
                ("local://This PC/" ++ displayName ++ "/"))
      | none => .error (.unsupportedLocal virtualPath)

/-! ## DirectoryReader: `inferFileType`, `readDirectory` -/

/-- Node `path.extname` on a bare file name: from the last `.` to the end;
empty when there is no dot or the only dot is the leading character. -/
def extname (name : String) : String :=
  let rev := name.data.reverse
  match rev.dropWhile (· ≠ '.') with
  | '.' :: restRev => if restRev = [] then "" else ⟨'.' :: (rev.takeWhile (· ≠ '.')).reverse⟩
  | _ => ""

/-- `inferFileType(name, isDirectory)` from `main.mjs`. -/
def inferFileType (name : String) (isDirectory : Bool) : String :=
  if isDirectory then "folder"
  else
    let ext := (extname name).toLower
    if ext = ".doc" ∨ ext = ".docx" ∨ ext = ".md" ∨ ext = ".txt" then "document"
    else if ext = ".xlsx" ∨ ext = ".csv" ∨ ext = ".tsv" then "spreadsheet"
    else if ext = ".ppt" ∨ ext = ".pptx" then "presentation"
    else if ext = ".jpg" ∨ ext = ".jpeg" ∨ ext = ".png" ∨ ext = ".gif" ∨ ext = ".webp" ∨ ext = ".svg" then "image"
    else if ext = ".mp4" ∨ ext = ".mkv" ∨ ext = ".mov" ∨ ext = ".avi" then "video"
    else if ext = ".zip" ∨ ext = ".rar" ∨ ext = ".7z" then "archive"
    else if ext = ".mp3" ∨ ext = ".wav" ∨ ext = ".flac" then "audio"
    else if ext = ".pdf" then "pdf"
    else "file"

/-- A `fs.readdir(..., { withFileTypes: true })` entry. -/
structure DirEnt where
  name : String
  isDirectory : Bool
deriving DecidableEq

/-- A `fs.stat` result (the fields `readDirectory` and the copy loop use). -/
structure Stats where
  isDirectory : Bool
  size : Nat
  mtimeIso : String
deriving DecidableEq

/-- The uniform listing record built by `readDirectory` (FileEntry). -/
structure FileEntry where
  id : String
  name : String
  type : String
  size : Option Nat
  modified : String
  path : String
  service : String
deriving DecidableEq

/-- The asynchronous filesystem environment: results of the `fs` calls the
directory reader and catalogs perform.  `stat = none` models a thrown
lookup error; `readdir = .error` models a failed directory read. -/
structure FsEnv where
  readdir : String → Except Unit (List DirEnt)
  stat : String → Option Stats
  pathExists : String → Bool
  nowIso : String

/-- The comparator of `readDirectory`'s `.sort(...)`, as a
before-or-equal test: folders sort before non-folders, otherwise
`a.name.localeCompare(b.name) <= 0`, where `nameCmp` models the
locale-aware `localeCompare` order. -/
def entryLE (nameCmp : String → String → Bool) (a b : FileEntry) : Bool :=
  if a.type = "folder" ∧ b.type ≠ "folder" then true
  else if a.type ≠ "folder" ∧ b.type = "folder" then false
  else nameCmp a.name b.name

/-- `readDirectory(fsPath, virtualBase)` from `main.mjs`: list children,
drop those whose stat fails, map to FileEntry, sort; a failure of the
directory read itself yields `[]`.  JS `Array.prototype.sort` with a
consistent comparator is modelled by the stable `List.mergeSort`. -/
def readDirectory (nameCmp : String → String → Bool) (env : FsEnv)
    (fsPath virtualBase : String) : List FileEntry :=
  let baseWithSlash := normalizeVirtualFolder virtualBase
  match env.readdir fsPath with
  | .error _ => []
  | .ok dirEntries =>
    let items := dirEntries.map (fun entry =>
      let entryFsPath := pathJoin1 fsPath entry.name
      match env.stat entryFsPath with
      | none => none
      | some stats =>
        let isDirectory := entry.isDirectory
        let virtualPath := baseWithSlash ++ entry.name ++ (if isDirectory then "/" else "")
        some { id := createIdForPath virtualPath
               name := entry.name
               type := inferFileType entry.name isDirectory
               size := if isDirectory then none else some stats.size
               modified := stats.mtimeIso
               path := virtualPath
               service := "local" })
    (items.reduceOption).mergeSort (entryLE nameCmp)

/-! ## SpecialLocationCatalog: `listSpecialDirectories`, `listDriveRoots` -/

/-- `listSpecialDirectories()`: one folder entry per existing special
folder, then the synthetic `This PC` entry. -/
def listSpecialDirectories (env : FsEnv) (homedir : String) : List FileEntry :=
  ((specialFolders homedir).filter (fun folder => env.pathExists folder.fsPath)).map
    (fun folder =>
      { id := createIdForPath folder.virtual
        name := folder.label
        type := "folder"
        size := none
        modified := env.nowIso
        path := normalizeVirtualFolder folder.virtual
        service := "local" })
  ++ [{ id := createIdForPath "local://This PC/"
        name := "This PC"
        type := "folder"
        size := none
        modified := env.nowIso
        path := "local://This PC/"
        service := "local" }]

/-- `listDriveRoots()`: the system drive plus every probe-accessible
letter `A:`–`Z:`, mapped to display-named folder entries and sorted by
name.  The drive-alias insertions are bookkeeping omitted here. -/
def listDriveRoots (nameCmp : String → String → Bool) (env : FsEnv)
    (systemDrive : String) : List FileEntry :=
  let letters := (List.range 26).map (fun i => (⟨[Char.ofNat (65 + i), ':']⟩ : String))
  let probed := letters.filter (fun cand => cand ≠ systemDrive && env.pathExists (cand ++ "\\"))
  let drives := systemDrive :: probed
  let items := drives.map (fun drive =>
    let displayName := if drive = systemDrive
      then "Local Disk (" ++ systemDrive ++ ")" else "Drive (" ++ drive ++ ")"
    { id := createIdForPath ("local://This PC/" ++ displayName ++ "/")
      name := displayName
      type := "folder"
      size := none
      modified := env.nowIso
      path := "local://This PC/" ++ displayName ++ "/"
      service := "local" })
  items.mergeSort (fun a b => nameCmp a.name b.name)

/-- The errors `handleListDirectory` can throw. -/
inductive ListError where
  | resolveFailed (e : ResolveError)
  | cannotListFile
deriving DecidableEq

/-- `handleListDirectory(_event, virtualPath)` from `main.mjs`. -/
def handleListDirectory (nameCmp : String → String → Bool) (env : FsEnv)
    (homedir : String) (aliasMap : List (String × String)) (systemDrive : String)
    (virtualPath : String) : Except ListError (List FileEntry) :=
  match resolveLocalVirtualPath homedir aliasMap virtualPath with
  | .error e => .error (.resolveFailed e)
  | .ok .root => .ok (listSpecialDirectories env homedir)
  | .ok .drives => .ok (listDriveRoots nameCmp env systemDrive)
  | .ok (.entry fsPath isDirectory baseVirtual) =>
    if ¬ isDirectory then .error .cannotListFile
    else .ok (readDirectory nameCmp env fsPath baseVirtual)

/-! ## FileOperationExecutor: filesystem state model and
`copyEntry` / `moveEntry` / `deleteEntry` / `performCopyOrMove`.

The mutable filesystem is a map from absolute real paths to nodes; a
directory node's whole subtree is collapsed into its opaque `content`
blob, which is exactly the granularity at which `fs.cp { recursive }`,
`fs.rename` and `fs.rm { recursive }` act in `main.mjs`. -/

/-- A filesystem node: directory flag plus opaque content (for a
directory, the whole subtree). -/
structure FsNode where
  isDir : Bool
  content : String
deriving DecidableEq

/-- Mutable filesystem state: what (if anything) lives at each path. -/
def FS := String → Option FsNode

/-- Point update of the filesystem. -/
def fsUpdate (fs : FS) (p : String) (v : Option FsNode) : FS :=
  fun q => if q = p then v else fs q

/-- The error conditions of the low-level `fs` operations used here. -/
inductive FsError where
  | enoent (p : String)
  | exdev
deriving DecidableEq

/-- `ensureDirectory(fsPath)`: `fs.mkdir { recursive: true }` — create the
directory if absent, no-op otherwise. -/
def ensureDirectory (fs : FS) (p : String) : FS :=
  if fs p = none then fsUpdate fs p (some ⟨true, ""⟩) else fs

/-- `fs.rename(src, dst)`: fails with `ENOENT` when the source is absent
and with `EXDEV` when source and destination are on different devices
(`dev` assigns a device to each path); otherwise atomically relocates
the node.  Returns the (possibly unchanged) state alongside the error. -/
def renameFs (dev : String → Nat) (fs : FS) (src dst : String) : FS × Option FsError :=
  match fs src with
  | none => (fs, some (.enoent src))
  | some v =>
    if dev src ≠ dev dst then (fs, some .exdev)
    else (fsUpdate (fsUpdate fs src none) dst (some v), none)

/-- `copyEntry(sourceFs, destinationFs)` from `main.mjs`: stat the source
(`ENOENT` when absent); a directory is copied recursively with overwrite,
a file gets its parent directory ensured and is then copied. -/
def copyEntry (fs : FS) (src dst : String) : FS × Option FsError :=
  match fs src with
  | none => (fs, some (.enoent src))
  | some v =>
    if v.isDir then (fsUpdate fs dst (some v), none)
    else (fsUpdate (ensureDirectory fs (dirname dst)) dst (some v), none)

/-- `deleteEntry(targetFs)`: `fs.rm { recursive: true, force: true }` —
remove whatever is there; absent targets are not an error. -/
def deleteEntry (fs : FS) (t : String) : FS := fsUpdate fs t none

/-- `moveEntry(sourceFs, destinationFs)` from `main.mjs`: ensure the
destination's parent, try an atomic rename, and on `EXDEV` fall back to
copy-then-delete-source; any other rename error propagates. -/
def moveEntry (dev : String → Nat) (fs : FS) (src dst : String) : FS × Option FsError :=
  let fs1 := ensureDirectory fs (dirname dst)
  match renameFs dev fs1 src dst with
  | (fs2, none) => (fs2, none)
  | (fs2, some e) =>
    if e = .exdev then
      match copyEntry fs2 src dst with
      | (fs3, none) => (deleteEntry fs3 src, none)
      | (fs3, some e2) => (fs3, some e2)
    else (fs2, some e)

/-- `normalizeDestinationVirtual(destination)` from `main.mjs`. -/
def normalizeDestinationVirtual (destination : String) : String :=
  if endsWithSlash destination then destination else destination ++ "/"

/-- One `{source, destination}` row of the result's `items` list. -/
structure OpItem where
  source : String
  destination : String
deriving DecidableEq

/-- The errors `performCopyOrMove` can throw. -/
inductive OpError where
  | noSources
  | badDestination
  | resolveFailed (e : ResolveError)
  | unsupportedSource (p : String)
  | selfContainment
  | ioError (e : FsError)
deriving DecidableEq

/-- Static parameters of a `performCopyOrMove` run: the resolver inputs,
the abstract `path.resolve` (`presolve`), and the device map used by
`fs.rename`. -/
structure OpCtx where
  homedir : String
  aliasMap : List (String × String)
  presolve : String → String
  dev : String → Nat

/-- The body of the `for (const sourceVirtual of sources)` loop of
`performCopyOrMove`, acting on the filesystem and the accumulated
results: resolve the source (only `ConcreteEntry` is supported), stat it,
build the target path, skip when source and target resolve identically,
reject self-containment, else perform the move or copy and record the
result row.  The returned state reflects mutations even when an error is
thrown. -/
def processSource (ctx : OpCtx) (move : Bool) (destFsPath destVirtual : String)
    (st : FS × List OpItem) (sourceVirtual : String) : FS × Except OpError (List OpItem) :=
  let (fs, acc) := st
  match resolveLocalVirtualPath ctx.homedir ctx.aliasMap sourceVirtual with
  | .error e => (fs, .error (.resolveFailed e))
  | .ok (.root) => (fs, .error (.unsupportedSource sourceVirtual))
  | .ok (.drives) => (fs, .error (.unsupportedSource sourceVirtual))
  | .ok (.entry sourceFsPath _ _) =>
    match fs sourceFsPath with
    | none => (fs, .error (.ioError (.enoent sourceFsPath)))
    | some sourceStats =>
      let bn := basename sourceFsPath
      let targetFsPath := pathJoin1 destFsPath bn
      let resolvedSource := ctx.presolve sourceFsPath
      let resolvedDestination := ctx.presolve targetFsPath
      if resolvedSource = resolvedDestination then (fs, .ok acc)
      else if strHasPrefix resolvedDestination (resolvedSource ++ pathSep) then
        (fs, .error .selfContainment)
      else
        let opResult := if move then moveEntry ctx.dev fs sourceFsPath targetFsPath
                        else copyEntry fs sourceFsPath targetFsPath
        match opResult with
        | (fs2, some e) => (fs2, .error (.ioError e))
        | (fs2, none) =>
          (fs2, .ok (acc ++ [⟨sourceVirtual,
            destVirtual ++ bn ++ (if sourceStats.isDir then "/" else "")⟩]))

/-- The source loop of `performCopyOrMove`: sequential, aborting on the
first error and keeping the mutations made so far. -/
def loopSources (ctx : OpCtx) (move : Bool) (destFsPath destVirtual : String)
    (fs : FS) (acc : List OpItem) : List String → FS × Except OpError (List OpItem)
  | [] => (fs, .ok acc)
  | s :: rest =>
    match processSource ctx move destFsPath destVirtual (fs, acc) s with
    | (fs2, .error e) => (fs2, .error e)
    | (fs2, .ok acc2) => loopSources ctx move destFsPath destVirtual fs2 acc2 rest

/-- `performCopyOrMove({ sources, destination, move })` from `main.mjs`:
validate the sources list and destination, create the destination
directory when absent, then run the source loop.  On success the second
component is the `items` list of the `{ success: true, items }` result. -/
def performCopyOrMove (ctx : OpCtx) (fs : FS) (sources : List String)
    (destination : String) (move : Bool) : FS × Except OpError (List OpItem) :=
  if sources = [] then (fs, .error .noSources)
  else
    let destVirtual := normalizeDestinationVirtual destination
    match resolveLocalVirtualPath ctx.homedir ctx.aliasMap destVirtual with
    | .error e => (fs, .error (.resolveFailed e))
    | .ok (.entry destFsPath true _) =>
      let fs0 := if ¬ (fs destFsPath).isSome then ensureDirectory fs destFsPath else fs
      loopSources ctx move destFsPath destVirtual fs0 [] sources
    | .ok _ => (fs, .error .badDestination)

/-! ## Shared infrastructure for the claim theorems -/

instance {ε α : Type} [DecidableEq ε] [DecidableEq α] : DecidableEq (Except ε α)
  | .error e, .error f => if h : e = f then .isTrue (by rw [h]) else .isFalse (by simp [h])
  | .error _, .ok _ => .isFalse (by simp)
  | .ok _, .error _ => .isFalse (by simp)
  | .ok a, .ok b => if h : a = b then .isTrue (by rw [h]) else .isFalse (by simp [h])

/-- The error kinds raised by resolution or validation (as opposed to
errors surfacing from attempted I/O). -/
def isValidationError : OpError → Bool
  | .noSources => true
  | .badDestination => true
  | .resolveFailed _ => true
  | .unsupportedSource _ => true
  | .selfContainment => true
  | .ioError _ => false

/-- A string never starts with itself extended by the separator. -/
theorem strHasPrefix_append_sep_self (s : String) : strHasPrefix s (s ++ pathSep) = false := by
  rw [strHasPrefix, Bool.eq_false_iff]
  intro h
  have hp : (s ++ pathSep).data <+: s.data := List.isPrefixOf_iff_prefix.mp h
  have hl := hp.length_le
  rw [String.data_append, List.length_append] at hl
  have hone : pathSep.data.length = 1 := by decide
  omega

/-- Updating at `p` then reading at `p` gives the update. -/
theorem fsUpdate_same (fs : FS) (p : String) (v : Option FsNode) : fsUpdate fs p v p = v := by
  simp [fsUpdate]

/-- Point updates at distinct paths commute. -/
theorem fsUpdate_comm (fs : FS) {a b : String} (v w : Option FsNode) (h : a ≠ b) :
    fsUpdate (fsUpdate fs a v) b w = fsUpdate (fsUpdate fs b w) a v := by
  funext q
  by_cases hqa : q = a <;> by_cases hqb : q = b <;>
    simp_all [fsUpdate]

/-- `ensureDirectory` is idempotent. -/
theorem ensureDirectory_idem (fs : FS) (p : String) :
    ensureDirectory (ensureDirectory fs p) p = ensureDirectory fs p := by
  by_cases h : fs p = none
  · have h1 : ensureDirectory fs p = fsUpdate fs p (some ⟨true, ""⟩) := by
      simp [ensureDirectory, h]
    rw [h1]
    simp [ensureDirectory, fsUpdate_same]
  · have h1 : ensureDirectory fs p = fs := by simp [ensureDirectory, h]
    rw [h1, h1]

/-- Shared concrete run context: `homedir = "C:\U"`, empty alias map,
`path.resolve` the identity (the sample paths are absolute and
normalized), all paths on one device. -/
def sampleCtx : OpCtx := ⟨"C:\\U", [], id, fun _ => 0⟩

/-- Shared concrete filesystem: a Desktop file `f.txt`, a Desktop
directory `d`, and the `Documents` directory. -/
def sampleFs : FS := fun p =>
  if p = "C:\\U\\Desktop\\f.txt" then some ⟨false, "data"⟩
  else if p = "C:\\U\\Desktop\\d" then some ⟨true, ""⟩
  else if p = "C:\\U\\Documents" then some ⟨true, ""⟩
  else none

/-! ## Claim C2 — self-containment check -/

/-- Claim C2: for a source that resolves to a concrete entry and whose
stat succeeds, the copy/move loop body raises `SelfContainmentError`
exactly when the resolved absolute target path (destination directory
joined with the source basename) starts with the resolved absolute
source path followed by the path separator. -/
theorem C2_selfContainment_iff
    (ctx : OpCtx) (move : Bool) (destFsPath destVirtual : String) (fs : FS)
    (acc : List OpItem) (sourceVirtual sourceFsPath : String) (d : Bool) (bv : String)
    (stats : FsNode)
    (hres : resolveLocalVirtualPath ctx.homedir ctx.aliasMap sourceVirtual
      = .ok (.entry sourceFsPath d bv))
    (hstat : fs sourceFsPath = some stats) :
    (processSource ctx move destFsPath destVirtual (fs, acc) sourceVirtual).2
        = .error .selfContainment
      ↔ strHasPrefix (ctx.presolve (pathJoin1 destFsPath (basename sourceFsPath)))
          (ctx.presolve sourceFsPath ++ pathSep) = true := by
  simp only [processSource, hres, hstat]
  by_cases h1 : ctx.presolve sourceFsPath = ctx.presolve (pathJoin1 destFsPath (basename sourceFsPath))
  · rw [if_pos h1, ← h1, strHasPrefix_append_sep_self]
    simp
  · rw [if_neg h1]
    by_cases h2 : strHasPrefix (ctx.presolve (pathJoin1 destFsPath (basename sourceFsPath)))
        (ctx.presolve sourceFsPath ++ pathSep) = true
    · rw [if_pos h2]
      simp [h2]
    · rw [if_neg h2, eq_false h2, iff_false]
      generalize (if move = true then moveEntry ctx.dev fs sourceFsPath
          (pathJoin1 destFsPath (basename sourceFsPath))
        else copyEntry fs sourceFsPath (pathJoin1 destFsPath (basename sourceFsPath))) = pr
      obtain ⟨fs2, _ | er⟩ := pr <;> simp

/-- Witness for C2 at a concrete input: copying the Desktop directory
`d` into its own subdirectory `d\sub` trips the containment check. -/
theorem C2_selfContainment_iff_witness :
    (resolveLocalVirtualPath sampleCtx.homedir sampleCtx.aliasMap "local://Desktop/d"
        = .ok (.entry "C:\\U\\Desktop\\d" false "local://Desktop/"))
    ∧ (sampleFs "C:\\U\\Desktop\\d" = some ⟨true, ""⟩)
    ∧ ((processSource sampleCtx false "C:\\U\\Desktop\\d\\sub" "local://Desktop/d/sub/"
          (sampleFs, []) "local://Desktop/d").2 = .error .selfContainment
        ↔ strHasPrefix (sampleCtx.presolve (pathJoin1 "C:\\U\\Desktop\\d\\sub"
              (basename "C:\\U\\Desktop\\d")))
            (sampleCtx.presolve "C:\\U\\Desktop\\d" ++ pathSep) = true) :=
  ⟨by decide, by decide,
    C2_selfContainment_iff sampleCtx false "C:\\U\\Desktop\\d\\sub" "local://Desktop/d/sub/"
      sampleFs [] "local://Desktop/d" "C:\\U\\Desktop\\d" false "local://Desktop/" ⟨true, ""⟩
      (by decide) (by decide)⟩

/-! ## Claim C5 — identical source and target: silent skip -/

/-- Claim C5: a source whose resolved absolute path equals the resolved
absolute target path is skipped: the loop body returns the filesystem
and the accumulated items unchanged, with no error — so the final
`items` list has a gap for that source. -/
theorem C5_skip_noop
    (ctx : OpCtx) (move : Bool) (destFsPath destVirtual : String) (fs : FS)
    (acc : List OpItem) (sourceVirtual sourceFsPath : String) (d : Bool) (bv : String)
    (stats : FsNode)
    (hres : resolveLocalVirtualPath ctx.homedir ctx.aliasMap sourceVirtual
      = .ok (.entry sourceFsPath d bv))
    (hstat : fs sourceFsPath = some stats)
    (heq : ctx.presolve sourceFsPath
      = ctx.presolve (pathJoin1 destFsPath (basename sourceFsPath))) :
    processSource ctx move destFsPath destVirtual (fs, acc) sourceVirtual = (fs, .ok acc) := by
  simp only [processSource, hres, hstat]
  rw [if_pos heq]

/-- Witness for C5 at a concrete input: copying `local://Desktop/f.txt`
onto its own containing directory (`destFsPath = C:\U\Desktop`) resolves
source and target to the same path and is a no-op. -/
theorem C5_skip_noop_witness :
    (resolveLocalVirtualPath sampleCtx.homedir sampleCtx.aliasMap "local://Desktop/f.txt"
        = .ok (.entry "C:\\U\\Desktop\\f.txt" false "local://Desktop/"))
    ∧ (sampleFs "C:\\U\\Desktop\\f.txt" = some ⟨false, "data"⟩)
    ∧ (sampleCtx.presolve "C:\\U\\Desktop\\f.txt"
        = sampleCtx.presolve (pathJoin1 "C:\\U\\Desktop" (basename "C:\\U\\Desktop\\f.txt")))
    ∧ processSource sampleCtx false "C:\\U\\Desktop" "local://Desktop/"
        (sampleFs, []) "local://Desktop/f.txt" = (sampleFs, .ok []) :=
  ⟨by decide, by decide, by decide,
    C5_skip_noop sampleCtx false "C:\\U\\Desktop" "local://Desktop/" sampleFs []
      "local://Desktop/f.txt" "C:\\U\\Desktop\\f.txt" false "local://Desktop/" ⟨false, "data"⟩
      (by decide) (by decide) (by decide)⟩

/-! ## Claim C1 — validation errors and partial side effects -/

/-- Helper: within one loop iteration, a resolution/validation error is
raised before that iteration performs any filesystem mutation. -/
theorem processSource_validation_pure
    (ctx : OpCtx) (move : Bool) (destFsPath destVirtual : String) (fs : FS)
    (acc : List OpItem) (sv : String) (e : OpError)
    (hval : isValidationError e = true)
    (herr : (processSource ctx move destFsPath destVirtual (fs, acc) sv).2 = .error e) :
    (processSource ctx move destFsPath destVirtual (fs, acc) sv).1 = fs := by
  unfold processSource at herr ⊢
  rcases hr : resolveLocalVirtualPath ctx.homedir ctx.aliasMap sv with e' | info
  · simp [hr]
  · cases info with
    | root => simp [hr]
    | drives => simp [hr]
    | entry sp dd bb =>
      simp only [hr] at herr ⊢
      rcases hs : fs sp with _ | stats
      · simp [hs]
      · simp only [hs] at herr ⊢
        by_cases h1 : ctx.presolve sp = ctx.presolve (pathJoin1 destFsPath (basename sp))
        · rw [if_pos h1]
        · rw [if_neg h1] at herr ⊢
          by_cases h2 : strHasPrefix (ctx.presolve (pathJoin1 destFsPath (basename sp)))
              (ctx.presolve sp ++ pathSep) = true
          · rw [if_pos h2]
          · rw [if_neg h2] at herr ⊢
            revert herr
            generalize (if move = true then moveEntry ctx.dev fs sp
                (pathJoin1 destFsPath (basename sp))
              else copyEntry fs sp (pathJoin1 destFsPath (basename sp))) = pr
            obtain ⟨fs2, _ | er⟩ := pr
            · intro herr
              exact absurd herr (by simp)
            · intro herr
              have : e = .ioError er := by
                have := herr.symm
                simpa using this
              rw [this] at hval
              simp [isValidationError] at hval

/-- Claim C1 (amended): when the first source of the batch fails a
resolution or validation check and the destination directory already
exists on disk, the whole call leaves the filesystem unchanged and
reports that error.  (The unamended claim — that this holds for a
validation failure on any source of the batch — is refuted by
`C1_counterexample`.) -/
theorem C1_firstSource_validation_pure
    (ctx : OpCtx) (move : Bool) (fs : FS) (destination destFsPath bv : String)
    (s : String) (rest : List String) (e : OpError)
    (hdest : resolveLocalVirtualPath ctx.homedir ctx.aliasMap
        (normalizeDestinationVirtual destination) = .ok (.entry destFsPath true bv))
    (hex : (fs destFsPath).isSome = true)
    (hval : isValidationError e = true)
    (hstep : (processSource ctx move destFsPath (normalizeDestinationVirtual destination)
        (fs, []) s).2 = .error e) :
    performCopyOrMove ctx fs (s :: rest) destination move = (fs, .error e) := by
  have h1 : (processSource ctx move destFsPath (normalizeDestinationVirtual destination)
      (fs, []) s).1 = fs :=
    processSource_validation_pure ctx move destFsPath _ fs [] s e hval hstep
  have hps : processSource ctx move destFsPath (normalizeDestinationVirtual destination)
      (fs, []) s = (fs, .error e) := by
    calc processSource ctx move destFsPath (normalizeDestinationVirtual destination) (fs, []) s
        = ((processSource ctx move destFsPath (normalizeDestinationVirtual destination)
            (fs, []) s).1,
           (processSource ctx move destFsPath (normalizeDestinationVirtual destination)
            (fs, []) s).2) := rfl
      _ = (fs, .error e) := by rw [h1, hstep]
  unfold performCopyOrMove
  rw [if_neg (by simp)]
  simp only [hdest]
  rw [if_neg (by simp [hex])]
  simp only [loopSources, hps]

/-- Witness for the amended C1: destination `local://Documents/` exists,
and the first source `"bogus"` fails scheme validation, so the call
fails with that error and the filesystem is untouched. -/
theorem C1_firstSource_validation_pure_witness :
    (resolveLocalVirtualPath sampleCtx.homedir sampleCtx.aliasMap
        (normalizeDestinationVirtual "local://Documents/")
        = .ok (.entry "C:\\U\\Documents" true "local://Documents/"))
    ∧ ((sampleFs "C:\\U\\Documents").isSome = true)
    ∧ (isValidationError (.resolveFailed (.unsupportedScheme "bogus")) = true)
    ∧ ((processSource sampleCtx false "C:\\U\\Documents"
          (normalizeDestinationVirtual "local://Documents/") (sampleFs, []) "bogus").2
        = .error (.resolveFailed (.unsupportedScheme "bogus")))
    ∧ performCopyOrMove sampleCtx sampleFs ["bogus", "local://Desktop/f.txt"]
        "local://Documents/" false
        = (sampleFs, .error (.resolveFailed (.unsupportedScheme "bogus"))) :=
  ⟨by decide, by decide, by decide, by decide,
    C1_firstSource_validation_pure sampleCtx false sampleFs "local://Documents/"
      "C:\\U\\Documents" "local://Documents/" "bogus" ["local://Desktop/f.txt"]
      (.resolveFailed (.unsupportedScheme "bogus"))
      (by decide) (by decide) (by decide) (by decide)⟩

/-- Counterexample to C1 as stated: in the batch
`["local://Desktop/f.txt", "x"]` the second source fails scheme
validation, yet the filesystem has already been modified (the first
source was copied into `Documents`), so a validation failure on a later
source of the batch does not leave the filesystem unchanged. -/
theorem C1_counterexample :
    ((performCopyOrMove sampleCtx sampleFs ["local://Desktop/f.txt", "x"]
        "local://Documents/" false).2 = .error (.resolveFailed (.unsupportedScheme "x")))
    ∧ (isValidationError (.resolveFailed (.unsupportedScheme "x")) = true)
    ∧ (performCopyOrMove sampleCtx sampleFs ["local://Desktop/f.txt", "x"]
        "local://Documents/" false).1 ≠ sampleFs := by
  refine ⟨by decide, by decide, fun h => ?_⟩
  exact absurd (congrFun h "C:\\U\\Documents\\f.txt") (by decide)

/-! ## Claim C4 — cross-device move falls back to copy + delete -/

/-- Claim C4: with the destination's parent ensured, a move of an
existing entry succeeds and ends in exactly the atomic-rename end state
(source absent, destination holding the source's node) for every device
assignment — in particular when the rename fails with the cross-device
error and the copy-then-delete fallback runs; and the only other rename
failure, a missing source, propagates unchanged instead of being masked
by the fallback. -/
theorem C4_moveEntry_crossDevice_fallback (dev : String → Nat) (fs : FS) (src dst : String)
    (hne : src ≠ dst) :
    (∀ v, ensureDirectory fs (dirname dst) src = some v →
      moveEntry dev fs src dst
          = (fsUpdate (fsUpdate (ensureDirectory fs (dirname dst)) src none) dst (some v), none)
        ∧ (moveEntry dev fs src dst).1 src = none
        ∧ (moveEntry dev fs src dst).1 dst = some v)
    ∧ (ensureDirectory fs (dirname dst) src = none →
        moveEntry dev fs src dst = (ensureDirectory fs (dirname dst), some (.enoent src))) := by
  constructor
  · intro v hv
    have main : moveEntry dev fs src dst
        = (fsUpdate (fsUpdate (ensureDirectory fs (dirname dst)) src none) dst (some v),
           none) := by
      unfold moveEntry renameFs
      simp only [hv]
      by_cases hdev : dev src ≠ dev dst
      · rw [if_pos hdev]
        simp only [reduceIte]
        unfold copyEntry
        simp only [hv]
        by_cases hd : v.isDir = true
        · rw [if_pos hd]
          unfold deleteEntry
          exact congrArg (fun m => (m, none))
            (fsUpdate_comm (ensureDirectory fs (dirname dst)) (some v) none (Ne.symm hne))
        · rw [if_neg hd]
          rw [ensureDirectory_idem]
          unfold deleteEntry
          exact congrArg (fun m => (m, none))
            (fsUpdate_comm (ensureDirectory fs (dirname dst)) (some v) none (Ne.symm hne))
      · rw [if_neg hdev]
    refine ⟨main, ?_, ?_⟩
    · rw [main]
      simp [fsUpdate, hne]
    · rw [main]
      simp [fsUpdate]
  · intro hv
    unfold moveEntry renameFs
    simp [hv]

/-- Witness for C4 at a concrete input: moving `C:\a\s.txt` to
`C:\b\s.txt` with the two paths on different simulated devices. -/
theorem C4_moveEntry_crossDevice_fallback_witness :
    ("C:\\a\\s.txt" ≠ "C:\\b\\s.txt")
    ∧ ((∀ v, ensureDirectory
          (fun p => if p = "C:\\a\\s.txt" then some ⟨false, "x"⟩ else none)
          (dirname "C:\\b\\s.txt") "C:\\a\\s.txt" = some v →
        moveEntry (fun p => if p = "C:\\a\\s.txt" then 0 else 1)
            (fun p => if p = "C:\\a\\s.txt" then some ⟨false, "x"⟩ else none)
            "C:\\a\\s.txt" "C:\\b\\s.txt"
            = (fsUpdate (fsUpdate (ensureDirectory
                  (fun p => if p = "C:\\a\\s.txt" then some ⟨false, "x"⟩ else none)
                  (dirname "C:\\b\\s.txt")) "C:\\a\\s.txt" none) "C:\\b\\s.txt" (some v), none)
          ∧ (moveEntry (fun p => if p = "C:\\a\\s.txt" then 0 else 1)
              (fun p => if p = "C:\\a\\s.txt" then some ⟨false, "x"⟩ else none)
              "C:\\a\\s.txt" "C:\\b\\s.txt").1 "C:\\a\\s.txt" = none
          ∧ (moveEntry (fun p => if p = "C:\\a\\s.txt" then 0 else 1)
              (fun p => if p = "C:\\a\\s.txt" then some ⟨false, "x"⟩ else none)
              "C:\\a\\s.txt" "C:\\b\\s.txt").1 "C:\\b\\s.txt" = some v)
      ∧ (ensureDirectory (fun p => if p = "C:\\a\\s.txt" then some ⟨false, "x"⟩ else none)
            (dirname "C:\\b\\s.txt") "C:\\a\\s.txt" = none →
          moveEntry (fun p => if p = "C:\\a\\s.txt" then 0 else 1)
              (fun p => if p = "C:\\a\\s.txt" then some ⟨false, "x"⟩ else none)
              "C:\\a\\s.txt" "C:\\b\\s.txt"
            = (ensureDirectory (fun p => if p = "C:\\a\\s.txt" then some ⟨false, "x"⟩ else none)
                (dirname "C:\\b\\s.txt"), some (.enoent "C:\\a\\s.txt")))) :=
  ⟨by decide,
    C4_moveEntry_crossDevice_fallback (fun p => if p = "C:\\a\\s.txt" then 0 else 1)
      (fun p => if p = "C:\\a\\s.txt" then some ⟨false, "x"⟩ else none)
      "C:\\a\\s.txt" "C:\\b\\s.txt" (by decide)⟩

/-! ## Claim C3 — scheme validation of the resolver -/

/-- Modelled from the spec's words, for the refinement comparison: the
five scheme prefixes the spec declares as known. -/
def knownSchemes : List String :=
  ["local://", "gdrive://", "dropbox://", "onedrive://", "combined://"]

/-- Modelled from the spec's words: does the path start with one of the
spec's five known scheme prefixes? -/
def hasKnownScheme (p : String) : Bool :=
  knownSchemes.any (fun s => strHasPrefix p s)

/-- Counterexample to C3 as stated: `"gdrive://x"` starts with a known
scheme prefix, yet `resolveLocalVirtualPath` rejects it with the
unsupported-scheme error, so the claimed equivalence fails at this
input. -/
theorem C3_counterexample :
    ¬ (resolveLocalVirtualPath "C:\\U" [] "gdrive://x"
          = .error (.unsupportedScheme "gdrive://x")
        ↔ hasKnownScheme "gdrive://x" = false) := by decide

/-- Claim C3 (amended): the resolver fails with the unsupported-scheme
error exactly when the sanitized path does not start with `local://` —
the only scheme `resolveLocalVirtualPath` supports; the other four
spec-listed schemes are rejected on account of their scheme. -/
theorem C3_unsupportedScheme_iff (homedir : String) (aliasMap : List (String × String))
    (p : String) :
    resolveLocalVirtualPath homedir aliasMap p = .error (.unsupportedScheme p)
      ↔ strHasPrefix (sanitizeVirtualPath p) "local://" = false := by
  unfold resolveLocalVirtualPath
  by_cases hs : strHasPrefix (sanitizeVirtualPath p) "local://" = true
  · rw [if_neg (by simp [hs]), hs]
    constructor
    · intro hcontra
      exfalso
      revert hcontra
      repeat' split
      all_goals intro h
      all_goals try simp at h
      all_goals revert h
      all_goals repeat' split
      all_goals intro h
      all_goals simp at h
    · intro hfalse
      exact absurd hfalse (by simp)
  · rw [if_pos (by simp [hs])]
    simp [Bool.not_eq_true] at hs
    simp [hs]

/-! ## Claim C9 — listing a file-classified path throws -/

/-- Claim C9: `handleListDirectory` throws the cannot-list-a-file error
exactly when the path resolves to a concrete entry classified as a file;
root, drive-container and directory-classified entries never produce
this error. -/
theorem C9_listDirectory_file_error (nameCmp : String → String → Bool) (env : FsEnv)
    (homedir : String) (aliasMap : List (String × String)) (systemDrive : String)
    (p : String) :
    handleListDirectory nameCmp env homedir aliasMap systemDrive p = .error .cannotListFile
      ↔ ∃ f bv, resolveLocalVirtualPath homedir aliasMap p = .ok (.entry f false bv) := by
  unfold handleListDirectory
  rcases hr : resolveLocalVirtualPath homedir aliasMap p with e | info
  · simp [hr]
  · cases info with
    | root => simp [hr]
    | drives => simp [hr]
    | entry f d bv =>
      cases d <;> simp [hr]

/-! ## Claim C6 — listing order: folders first, then names ascending -/

/-- The sort comparator is transitive when the name order is. -/
theorem entryLE_trans (nameCmp : String → String → Bool)
    (ht : ∀ a b c, nameCmp a b = true → nameCmp b c = true → nameCmp a c = true)
    (x y z : FileEntry) (hxy : entryLE nameCmp x y = true) (hyz : entryLE nameCmp y z = true) :
    entryLE nameCmp x z = true := by
  by_cases hx : x.type = "folder" <;> by_cases hy : y.type = "folder" <;>
    by_cases hz : z.type = "folder" <;>
    simp_all [entryLE]
  all_goals exact ht _ _ _ hxy hyz

/-- The sort comparator is total when the name order is. -/
theorem entryLE_total (nameCmp : String → String → Bool)
    (htot : ∀ a b, (nameCmp a b || nameCmp b a) = true)
    (x y : FileEntry) : (entryLE nameCmp x y || entryLE nameCmp y x) = true := by
  by_cases hx : x.type = "folder" <;> by_cases hy : y.type = "folder" <;>
    simp_all [entryLE]

/-- What one comparator step means for the claim's ordering. -/
theorem entryLE_implies (nameCmp : String → String → Bool) (x y : FileEntry)
    (h : entryLE nameCmp x y = true) :
    (y.type = "folder" → x.type = "folder")
      ∧ ((x.type = "folder" ↔ y.type = "folder") → nameCmp x.name y.name = true) := by
  by_cases hx : x.type = "folder" <;> by_cases hy : y.type = "folder" <;>
    simp_all [entryLE]

/-- Claim C6: for a name order that is transitive and total (as the
locale order of `localeCompare` is), every directory listing places all
folder-typed entries before all non-folder entries, and entries of the
same group appear in ascending name order; the sort acts on the list
obtained after dropping failed children. -/
theorem C6_listing_sorted (nameCmp : String → String → Bool)
    (ht : ∀ a b c, nameCmp a b = true → nameCmp b c = true → nameCmp a c = true)
    (htot : ∀ a b, (nameCmp a b || nameCmp b a) = true)
    (env : FsEnv) (fsPath virtualBase : String) :
    List.Pairwise (fun a b =>
        (b.type = "folder" → a.type = "folder")
        ∧ ((a.type = "folder" ↔ b.type = "folder") → nameCmp a.name b.name = true))
      (readDirectory nameCmp env fsPath virtualBase) := by
  unfold readDirectory
  rcases hr : env.readdir fsPath with e | ds
  · exact List.Pairwise.nil
  · exact List.Pairwise.imp (fun h => entryLE_implies nameCmp _ _ h)
      (List.sorted_mergeSort (entryLE_trans nameCmp ht) (entryLE_total nameCmp htot) _)

/-- Witness for C6 at a concrete input (the trivial name order is
transitive and total; a two-child directory listing). -/
theorem C6_listing_sorted_witness :
    (∀ a b c : String, (fun _ _ => true : String → String → Bool) a b = true →
        (fun _ _ => true : String → String → Bool) b c = true →
        (fun _ _ => true : String → String → Bool) a c = true)
    ∧ (∀ a b : String, ((fun _ _ => true : String → String → Bool) a b
        || (fun _ _ => true : String → String → Bool) b a) = true)
    ∧ List.Pairwise (fun a b =>
        (b.type = "folder" → a.type = "folder")
        ∧ ((a.type = "folder" ↔ b.type = "folder")
            → (fun _ _ => true : String → String → Bool) a.name b.name = true))
      (readDirectory (fun _ _ => true)
        ⟨fun _ => .ok [⟨"a.txt", false⟩, ⟨"sub", true⟩],
         fun _ => some ⟨false, 2, "t"⟩, fun _ => true, "t"⟩
        "C:\\U\\Desktop" "local://Desktop/") :=
  ⟨fun _ _ _ _ _ => rfl, fun _ _ => rfl,
    C6_listing_sorted (fun _ _ => true) (fun _ _ _ _ _ => rfl) (fun _ _ => rfl)
      ⟨fun _ => .ok [⟨"a.txt", false⟩, ⟨"sub", true⟩],
       fun _ => some ⟨false, 2, "t"⟩, fun _ => true, "t"⟩
      "C:\\U\\Desktop" "local://Desktop/"⟩

/-! ## Claim C7 — soft failure of the directory read, silent drop of
failed children -/

/-- Claim C7: a failure to read the directory itself yields `[]` rather
than an error, and a child whose stat lookup fails contributes no entry
to the result (child names being distinct, as `readdir` guarantees). -/
theorem C7_readDirectory_soft_failures (nameCmp : String → String → Bool) (env : FsEnv)
    (fsPath virtualBase : String) :
    (env.readdir fsPath = .error () → readDirectory nameCmp env fsPath virtualBase = [])
    ∧ (∀ ds, env.readdir fsPath = .ok ds → (ds.map DirEnt.name).Nodup →
        ∀ d ∈ ds, env.stat (pathJoin1 fsPath d.name) = none →
          ∀ e ∈ readDirectory nameCmp env fsPath virtualBase, e.name ≠ d.name) := by
  constructor
  · intro h
    unfold readDirectory
    rw [h]
  · intro ds hok hnodup d hd hstat e he
    unfold readDirectory at he
    rw [hok] at he
    have he2 : e ∈ (ds.map (fun entry =>
        match env.stat (pathJoin1 fsPath entry.name) with
        | none => none
        | some stats =>
          some { id := createIdForPath (normalizeVirtualFolder virtualBase ++ entry.name
                   ++ (if entry.isDirectory then "/" else ""))
                 name := entry.name
                 type := inferFileType entry.name entry.isDirectory
                 size := if entry.isDirectory then none else some stats.size
                 modified := stats.mtimeIso
                 path := normalizeVirtualFolder virtualBase ++ entry.name
                   ++ (if entry.isDirectory then "/" else "")
                 service := "local" })).reduceOption :=
      (List.mergeSort_perm _ _).mem_iff.mp he
    have he3 := List.reduceOption_mem_iff.mp he2
    obtain ⟨d', hd', hfd'⟩ := List.mem_map.mp he3
    rcases hs' : env.stat (pathJoin1 fsPath d'.name) with _ | stats
    · rw [hs'] at hfd'
      exact Option.noConfusion hfd'
    · rw [hs'] at hfd'
      have hname : e.name = d'.name := by
        have := Option.some.inj hfd'
        rw [← this]
      intro heq
      have hdd : d' = d := by
        apply List.inj_on_of_nodup_map hnodup hd' hd
        rw [← hname, heq]
      rw [hdd, hstat] at hs'
      exact Option.noConfusion hs'

/-! ## Claim C8 — id determinism and collisions -/

/-- Fixed-width hex rendering has the stated width. -/
theorem toHexFixed_length : ∀ (w n : Nat), (toHexFixed w n).length = w
  | 0, _ => rfl
  | w + 1, n => by
    simp only [toHexFixed, List.length_append, List.length_cons, List.length_nil]
    rw [toHexFixed_length w (n / 16)]

/-- Fixed-width hex rendering only sees the value modulo `16 ^ width`. -/
theorem toHexFixed_mod : ∀ (w n : Nat), toHexFixed w (n % 16 ^ w) = toHexFixed w n
  | 0, _ => rfl
  | w + 1, n => by
    simp only [toHexFixed]
    congr 1
    · have h1 : n % 16 ^ (w + 1) / 16 = n / 16 % 16 ^ w := by
        rw [pow_succ, mul_comm]
        exact Nat.mod_mul_right_div_self n 16 (16 ^ w)
      rw [h1]
      exact toHexFixed_mod w (n / 16)
    · congr 1
      exact congrArg hexDigitChar (Nat.mod_mod_of_dvd n (dvd_pow_self 16 (Nat.succ_ne_zero w)))

/-- Counterexample to C8 as stated: `createIdForPath` maps the
infinitely many virtual paths into the finite set of 160-bit digests,
so it cannot be collision-free — two distinct paths with the same id
exist (by pigeonhole; SHA-1's collision resistance is computational,
not absolute). -/
theorem C8_counterexample :
    ¬ (∀ p1 p2 : String, p1 ≠ p2 → createIdForPath p1 ≠ createIdForPath p2) := by
  intro hinj
  have hN : 0 < (16 : Nat) ^ 40 := by positivity
  obtain ⟨m, n, hmn, hfeq⟩ := Finite.exists_ne_map_eq_of_infinite
    (fun n : ℕ => (⟨sha1Digest (utf8Bytes ⟨List.replicate n 'a'⟩) % 16 ^ 40,
      Nat.mod_lt _ hN⟩ : Fin (16 ^ 40)))
  have hdig : sha1Digest (utf8Bytes ⟨List.replicate m 'a'⟩) % 16 ^ 40
      = sha1Digest (utf8Bytes ⟨List.replicate n 'a'⟩) % 16 ^ 40 :=
    congrArg Fin.val hfeq
  have hhex : toHexFixed 40 (sha1Digest (utf8Bytes ⟨List.replicate m 'a'⟩))
      = toHexFixed 40 (sha1Digest (utf8Bytes ⟨List.replicate n 'a'⟩)) := by
    rw [← toHexFixed_mod 40 (sha1Digest (utf8Bytes ⟨List.replicate m 'a'⟩)),
        ← toHexFixed_mod 40 (sha1Digest (utf8Bytes ⟨List.replicate n 'a'⟩)), hdig]
  have hid : createIdForPath ⟨List.replicate m 'a'⟩ = createIdForPath ⟨List.replicate n 'a'⟩ :=
    congrArg (fun l => (⟨l⟩ : String)) hhex
  have hne : (⟨List.replicate m 'a'⟩ : String) ≠ ⟨List.replicate n 'a'⟩ := by
    intro h
    apply hmn
    have hdata : List.replicate m 'a' = List.replicate n 'a' := congrArg String.data h
    have := congrArg List.length hdata
    simpa [List.length_replicate] using this
  exact hinj _ _ hne hid

/-- Claim C8 (amended): `createIdForPath` is a pure deterministic
function of the virtual path and always yields a 40-character hex
digest; absolute collision-freeness over all distinct paths is
impossible (see the counterexample) and only holds computationally. -/
theorem C8_idFor_deterministic (p : String) :
    createIdForPath p = createIdForPath p ∧ (createIdForPath p).length = 40 := by
  refine ⟨rfl, ?_⟩
  show (String.mk (toHexFixed 40 (sha1Digest (utf8Bytes p)))).length = 40
  have h := toHexFixed_length 40 (sha1Digest (utf8Bytes p))
  simpa [String.length] using h

/-! ## Claim C10 — empty path segments are discarded: helper lemmas -/

/-- Rebuilding a string from its characters is the identity. -/
theorem string_eta (s : String) : (⟨s.data⟩ : String) = s := rfl

/-- A nonempty string has characters. -/
theorem str_data_length_pos (r : String) (h : r ≠ "") : 0 < r.data.length := by
  rcases hd : r.data with _ | ⟨c, cs⟩
  · exact absurd (by rw [← string_eta r, hd]) h
  · simp

/-- A prefix determines the first `k` characters. -/
theorem take_eq_of_append (a r b : List Char) (k : Nat) (hk : k ≤ a.length)
    (h : a ++ r = b) : a.take k = b.take k := by
  rw [← h, List.take_append_eq_append_take, Nat.sub_eq_zero_of_le hk, List.take_zero,
    List.append_nil]

/-- Appending does not change the first `k` characters. -/
theorem str_append_data_take (a r : String) (k : Nat) (hk : k ≤ a.data.length) :
    (a ++ r).data.take k = a.data.take k := by
  rw [String.data_append]
  exact (take_eq_of_append a.data r.data _ k hk rfl).symm

/-- Strings differing within their first `k` characters stay different
after appending to the first. -/
theorem str_ne_of_take {a r b : String} (k : Nat) (hk : k ≤ a.data.length)
    (hne : a.data.take k ≠ b.data.take k) : a ++ r ≠ b := by
  intro h
  apply hne
  rw [← str_append_data_take a r k hk, h]

/-- Strings of different lengths are different. -/
theorem str_ne_of_data_length {a b : String} (h : a.data.length ≠ b.data.length) : a ≠ b :=
  fun he => h (congrArg (fun s => s.data.length) he)

/-- A string whose first `k` characters differ from `b`'s cannot have
`b` as a prefix. -/
theorem not_hasPrefix_of_take {s b : String} (k : Nat) (hk : k ≤ b.data.length)
    (hne : s.data.take k ≠ b.data.take k) : strHasPrefix s b = false := by
  rw [strHasPrefix, Bool.eq_false_iff]
  intro h
  obtain ⟨t, ht⟩ := List.isPrefixOf_iff_prefix.mp h
  exact hne (take_eq_of_append b.data t s.data k hk ht).symm

/-- Prefix test refuted by the first `k` characters of the left part. -/
theorem not_hasPrefix_append_of_take {base r b : String} (k : Nat)
    (hk1 : k ≤ base.data.length) (hk2 : k ≤ b.data.length)
    (hne : base.data.take k ≠ b.data.take k) : strHasPrefix (base ++ r) b = false := by
  apply not_hasPrefix_of_take k hk2
  rw [str_append_data_take base r k hk1]
  exact hne

/-- A prefix of a string is also a prefix of any extension of it. -/
theorem hasPrefix_of_hasPrefix_append (base r p : String)
    (h : strHasPrefix base p = true) : strHasPrefix (base ++ r) p = true := by
  rw [strHasPrefix] at h ⊢
  rw [String.data_append]
  exact List.isPrefixOf_iff_prefix.mpr
    ((List.isPrefixOf_iff_prefix.mp h).trans (List.prefix_append _ _))

/-- Every string is a prefix of itself extended. -/
theorem hasPrefix_append_self (base r : String) : strHasPrefix (base ++ r) base = true := by
  rw [strHasPrefix, String.data_append]
  exact List.isPrefixOf_iff_prefix.mpr (List.prefix_append _ _)

/-- A properly extended string differs from its base. -/
theorem append_ne_base {base r : String} (hr : 0 < r.data.length) : base ++ r ≠ base := by
  apply str_ne_of_data_length
  rw [String.data_append, List.length_append]
  omega

/-- A properly extended string differs from its base less one character. -/
theorem append_ne_dropRight {base r : String} (hr : 0 < r.data.length) :
    base ++ r ≠ dropRight1 base := by
  apply str_ne_of_data_length
  rw [String.data_append, List.length_append]
  have hd : (dropRight1 base).data.length = base.data.length - 1 := by
    simp [dropRight1]
  omega

/-- Sanitization is the identity on backslash-free character lists. -/
theorem sanitizeAux_no_bs : ∀ (fl : Bool) (l : List Char), pathSepChar ∉ l → sanitizeAux fl l = l
  | _, [], _ => rfl
  | fl, c :: rest, h => by
    have hc : ¬ c = pathSepChar := fun hc => h (hc ▸ List.mem_cons_self c rest)
    have hr : pathSepChar ∉ rest := fun hr => h (List.mem_cons_of_mem _ hr)
    simp only [sanitizeAux]
    rw [if_neg hc, sanitizeAux_no_bs false rest hr]

/-- Sanitization is the identity on backslash-free strings. -/
theorem sanitize_no_bs (s : String) (h : pathSepChar ∉ s.data) : sanitizeVirtualPath s = s := by
  unfold sanitizeVirtualPath sanitizeChars
  rw [sanitizeAux_no_bs false s.data h]

/-- Concatenations of backslash-free strings are backslash-free. -/
theorem no_bs_append {base r : String} (h1 : pathSepChar ∉ base.data)
    (h2 : pathSepChar ∉ r.data) : pathSepChar ∉ (base ++ r).data := by
  rw [String.data_append]
  simp only [List.mem_append]
  rintro (h | h)
  exacts [h1 h, h2 h]

/-- JS slice after the base of a concatenation returns the remainder. -/
theorem strDrop_append (a r : String) : strDrop (a ++ r) a.data.length = r := by
  unfold strDrop
  rw [String.data_append, List.drop_left]

/-- `takeWhile` stops exactly at the first occurrence of `x`. -/
theorem takeWhile_ne_append (x : Char) (l1 l2 : List Char) (h : x ∉ l1) :
    (l1 ++ x :: l2).takeWhile (fun c => c ≠ x) = l1 := by
  induction l1 with
  | nil => simp [List.takeWhile]
  | cons c cs ih =>
    have hc : ¬ c = x := fun hc => h (hc ▸ List.mem_cons_self c cs)
    have hr : x ∉ cs := fun hr => h (List.mem_cons_of_mem _ hr)
    simp only [List.cons_append, List.takeWhile_cons]
    rw [if_pos (by simp [hc]), ih hr]

/-- `dropWhile` drops exactly up to the first occurrence of `x`. -/
theorem dropWhile_ne_append (x : Char) (l1 l2 : List Char) (h : x ∉ l1) :
    (l1 ++ x :: l2).dropWhile (fun c => c ≠ x) = x :: l2 := by
  induction l1 with
  | nil => simp [List.dropWhile]
  | cons c cs ih =>
    have hc : ¬ c = x := fun hc => h (hc ▸ List.mem_cons_self c cs)
    have hr : x ∉ cs := fun hr => h (List.mem_cons_of_mem _ hr)
    simp only [List.cons_append, List.dropWhile_cons]
    rw [if_pos (by simp [hc]), ih hr]

/-- One skipped row of the special-folder loop. -/
theorem findSpecialMatch_skip (a : Bool) (s : String) (folder : SpecialFolder)
    (rest : List SpecialFolder)
    (h1 : s ≠ normalizeVirtualFolder folder.virtual)
    (h2 : s ≠ dropRight1 (normalizeVirtualFolder folder.virtual))
    (h3 : strHasPrefix s (normalizeVirtualFolder folder.virtual) = false) :
    findSpecialMatch a s (folder :: rest) = findSpecialMatch a s rest := by
  simp only [findSpecialMatch]
  rw [if_neg (not_or.mpr ⟨h1, h2⟩), if_neg (by simp [h3])]

/-- The matching nested row of the special-folder loop. -/
theorem findSpecialMatch_hit (a : Bool) (s : String) (folder : SpecialFolder)
    (rest : List SpecialFolder)
    (h1 : s ≠ normalizeVirtualFolder folder.virtual)
    (h2 : s ≠ dropRight1 (normalizeVirtualFolder folder.virtual))
    (h3 : strHasPrefix s (normalizeVirtualFolder folder.virtual) = true) :
    findSpecialMatch a s (folder :: rest)
      = some (.entry (pathJoinList folder.fsPath
          ((splitOnChar '/' (strDrop s (normalizeVirtualFolder folder.virtual).data.length)).filter
            (fun x => x ≠ "")))
          (a || ((splitOnChar '/' (strDrop s
              (normalizeVirtualFolder folder.virtual).data.length)).filter
            (fun x => x ≠ "")).isEmpty)
          (normalizeVirtualFolder folder.virtual)) := by
  simp only [findSpecialMatch]
  rw [if_neg (not_or.mpr ⟨h1, h2⟩), if_pos h3]

/-- Resolution of a path nested under the `Desktop` special folder. -/
theorem resolve_desktop_nested (homedir : String) (aliasMap : List (String × String))
    (r : String) (hr : r ≠ "") (hb : pathSepChar ∉ r.data) :
    resolveLocalVirtualPath homedir aliasMap ("local://Desktop/" ++ r)
      = .ok (.entry (pathJoinList (pathJoin1 homedir "Desktop")
          ((splitOnChar '/' r).filter (· ≠ "")))
          (endsWithSlash ("local://Desktop/" ++ r)
            || ((splitOnChar '/' r).filter (· ≠ "")).isEmpty)
          "local://Desktop/") := by
  have hrl : 0 < r.data.length := str_data_length_pos r hr
  have hsan : sanitizeVirtualPath ("local://Desktop/" ++ r) = "local://Desktop/" ++ r :=
    sanitize_no_bs _ (no_bs_append (by decide) hb)
  have hpref : strHasPrefix ("local://Desktop/" ++ r) "local://" = true :=
    hasPrefix_of_hasPrefix_append _ _ _ (by decide)
  have hne1 : "local://Desktop/" ++ r ≠ "local://" := str_ne_of_take 9 (by decide) (by decide)
  have hne2 : "local://Desktop/" ++ r ≠ "local://This PC/" := str_ne_of_take 9 (by decide) (by decide)
  have hne3 : "local://Desktop/" ++ r ≠ "local://This PC" := str_ne_of_take 9 (by decide) (by decide)
  have hb0 : normalizeVirtualFolder "local://Desktop/" = "local://Desktop/" := by decide
  have hown1 : ¬("local://Desktop/" ++ r = "local://Desktop/" ∨ "local://Desktop/" ++ r = dropRight1 "local://Desktop/") :=
    not_or.mpr ⟨append_ne_base hrl, append_ne_dropRight hrl⟩
  have hown2 : strHasPrefix ("local://Desktop/" ++ r) "local://Desktop/" = true := hasPrefix_append_self _ _
  have hdrop : strDrop ("local://Desktop/" ++ r) (("local://Desktop/" : String)).data.length = r := strDrop_append _ _
  have hfind : findSpecialMatch (endsWithSlash ("local://Desktop/" ++ r)) ("local://Desktop/" ++ r) (specialFolders homedir)
      = some (.entry (pathJoinList (pathJoin1 homedir "Desktop")
          ((splitOnChar '/' r).filter (· ≠ "")))
          (endsWithSlash ("local://Desktop/" ++ r)
            || ((splitOnChar '/' r).filter (· ≠ "")).isEmpty)
          "local://Desktop/") := by
    simp only [specialFolders, findSpecialMatch, hb0, hown1, hown2, hdrop, Bool.false_eq_true, if_true, if_false]
  unfold resolveLocalVirtualPath
  rw [hsan, if_neg (fun hc => hc hpref), if_neg hne1, if_neg (not_or.mpr ⟨hne2, hne3⟩)]
  simp only [hfind]

/-- Resolution of a path nested under the `Documents` special folder. -/
theorem resolve_documents_nested (homedir : String) (aliasMap : List (String × String))
    (r : String) (hr : r ≠ "") (hb : pathSepChar ∉ r.data) :
    resolveLocalVirtualPath homedir aliasMap ("local://Documents/" ++ r)
      = .ok (.entry (pathJoinList (pathJoin1 homedir "Documents")
          ((splitOnChar '/' r).filter (· ≠ "")))
          (endsWithSlash ("local://Documents/" ++ r)
            || ((splitOnChar '/' r).filter (· ≠ "")).isEmpty)
          "local://Documents/") := by
  have hrl : 0 < r.data.length := str_data_length_pos r hr
  have hsan : sanitizeVirtualPath ("local://Documents/" ++ r) = "local://Documents/" ++ r :=
    sanitize_no_bs _ (no_bs_append (by decide) hb)
  have hpref : strHasPrefix ("local://Documents/" ++ r) "local://" = true :=
    hasPrefix_of_hasPrefix_append _ _ _ (by decide)
  have hne1 : "local://Documents/" ++ r ≠ "local://" := str_ne_of_take 9 (by decide) (by decide)
  have hne2 : "local://Documents/" ++ r ≠ "local://This PC/" := str_ne_of_take 9 (by decide) (by decide)
  have hne3 : "local://Documents/" ++ r ≠ "local://This PC" := str_ne_of_take 9 (by decide) (by decide)
  have hnb0 : normalizeVirtualFolder "local://Desktop/" = "local://Desktop/" := by decide
  have hs0a : ¬("local://Documents/" ++ r = "local://Desktop/" ∨ "local://Documents/" ++ r = dropRight1 "local://Desktop/") :=
    not_or.mpr ⟨str_ne_of_take 11 (by decide) (by decide),
      str_ne_of_take 11 (by decide) (by decide)⟩
  have hs0b : strHasPrefix ("local://Documents/" ++ r) "local://Desktop/" = false :=
    not_hasPrefix_append_of_take 11 (by decide) (by decide) (by decide)
  have hb0 : normalizeVirtualFolder "local://Documents/" = "local://Documents/" := by decide
  have hown1 : ¬("local://Documents/" ++ r = "local://Documents/" ∨ "local://Documents/" ++ r = dropRight1 "local://Documents/") :=
    not_or.mpr ⟨append_ne_base hrl, append_ne_dropRight hrl⟩
  have hown2 : strHasPrefix ("local://Documents/" ++ r) "local://Documents/" = true := hasPrefix_append_self _ _
  have hdrop : strDrop ("local://Documents/" ++ r) (("local://Documents/" : String)).data.length = r := strDrop_append _ _
  have hfind : findSpecialMatch (endsWithSlash ("local://Documents/" ++ r)) ("local://Documents/" ++ r) (specialFolders homedir)
      = some (.entry (pathJoinList (pathJoin1 homedir "Documents")
          ((splitOnChar '/' r).filter (· ≠ "")))
          (endsWithSlash ("local://Documents/" ++ r)
            || ((splitOnChar '/' r).filter (· ≠ "")).isEmpty)
          "local://Documents/") := by
    simp only [specialFolders, findSpecialMatch, hnb0, hs0a, hs0b, hb0, hown1, hown2, hdrop, Bool.false_eq_true, if_true, if_false]
  unfold resolveLocalVirtualPath
  rw [hsan, if_neg (fun hc => hc hpref), if_neg hne1, if_neg (not_or.mpr ⟨hne2, hne3⟩)]
  simp only [hfind]

/-- Resolution of a path nested under the `Downloads` special folder. -/
theorem resolve_downloads_nested (homedir : String) (aliasMap : List (String × String))
    (r : String) (hr : r ≠ "") (hb : pathSepChar ∉ r.data) :
    resolveLocalVirtualPath homedir aliasMap ("local://Downloads/" ++ r)
      = .ok (.entry (pathJoinList (pathJoin1 homedir "Downloads")
          ((splitOnChar '/' r).filter (· ≠ "")))
          (endsWithSlash ("local://Downloads/" ++ r)
            || ((splitOnChar '/' r).filter (· ≠ "")).isEmpty)
          "local://Downloads/") := by
  have hrl : 0 < r.data.length := str_data_length_pos r hr
  have hsan : sanitizeVirtualPath ("local://Downloads/" ++ r) = "local://Downloads/" ++ r :=
    sanitize_no_bs _ (no_bs_append (by decide) hb)
  have hpref : strHasPrefix ("local://Downloads/" ++ r) "local://" = true :=
    hasPrefix_of_hasPrefix_append _ _ _ (by decide)
  have hne1 : "local://Downloads/" ++ r ≠ "local://" := str_ne_of_take 9 (by decide) (by decide)
  have hne2 : "local://Downloads/" ++ r ≠ "local://This PC/" := str_ne_of_take 9 (by decide) (by decide)
  have hne3 : "local://Downloads/" ++ r ≠ "local://This PC" := str_ne_of_take 9 (by decide) (by decide)
  have hnb0 : normalizeVirtualFolder "local://Desktop/" = "local://Desktop/" := by decide
  have hs0a : ¬("local://Downloads/" ++ r = "local://Desktop/" ∨ "local://Downloads/" ++ r = dropRight1 "local://Desktop/") :=
    not_or.mpr ⟨str_ne_of_take 11 (by decide) (by decide),
      str_ne_of_take 11 (by decide) (by decide)⟩
  have hs0b : strHasPrefix ("local://Downloads/" ++ r) "local://Desktop/" = false :=
    not_hasPrefix_append_of_take 11 (by decide) (by decide) (by decide)
  have hnb1 : normalizeVirtualFolder "local://Documents/" = "local://Documents/" := by decide
  have hs1a : ¬("local://Downloads/" ++ r = "local://Documents/" ∨ "local://Downloads/" ++ r = dropRight1 "local://Documents/") :=
    not_or.mpr ⟨str_ne_of_take 11 (by decide) (by decide),
      str_ne_of_take 11 (by decide) (by decide)⟩
  have hs1b : strHasPrefix ("local://Downloads/" ++ r) "local://Documents/" = false :=
    not_hasPrefix_append_of_take 11 (by decide) (by decide) (by decide)
  have hb0 : normalizeVirtualFolder "local://Downloads/" = "local://Downloads/" := by decide
  have hown1 : ¬("local://Downloads/" ++ r = "local://Downloads/" ∨ "local://Downloads/" ++ r = dropRight1 "local://Downloads/") :=
    not_or.mpr ⟨append_ne_base hrl, append_ne_dropRight hrl⟩
  have hown2 : strHasPrefix ("local://Downloads/" ++ r) "local://Downloads/" = true := hasPrefix_append_self _ _
  have hdrop : strDrop ("local://Downloads/" ++ r) (("local://Downloads/" : String)).data.length = r := strDrop_append _ _
  have hfind : findSpecialMatch (endsWithSlash ("local://Downloads/" ++ r)) ("local://Downloads/" ++ r) (specialFolders homedir)
      = some (.entry (pathJoinList (pathJoin1 homedir "Downloads")
          ((splitOnChar '/' r).filter (· ≠ "")))
          (endsWithSlash ("local://Downloads/" ++ r)
            || ((splitOnChar '/' r).filter (· ≠ "")).isEmpty)
          "local://Downloads/") := by
    simp only [specialFolders, findSpecialMatch, hnb0, hs0a, hs0b, hnb1, hs1a, hs1b, hb0, hown1, hown2, hdrop, Bool.false_eq_true, if_true, if_false]
  unfold resolveLocalVirtualPath
  rw [hsan, if_neg (fun hc => hc hpref), if_neg hne1, if_neg (not_or.mpr ⟨hne2, hne3⟩)]
  simp only [hfind]

/-- Resolution of a path nested under the `Music` special folder. -/
theorem resolve_music_nested (homedir : String) (aliasMap : List (String × String))
    (r : String) (hr : r ≠ "") (hb : pathSepChar ∉ r.data) :
    resolveLocalVirtualPath homedir aliasMap ("local://Music/" ++ r)
      = .ok (.entry (pathJoinList (pathJoin1 homedir "Music")
          ((splitOnChar '/' r).filter (· ≠ "")))
          (endsWithSlash ("local://Music/" ++ r)
            || ((splitOnChar '/' r).filter (· ≠ "")).isEmpty)
          "local://Music/") := by
  have hrl : 0 < r.data.length := str_data_length_pos r hr
  have hsan : sanitizeVirtualPath ("local://Music/" ++ r) = "local://Music/" ++ r :=
    sanitize_no_bs _ (no_bs_append (by decide) hb)
  have hpref : strHasPrefix ("local://Music/" ++ r) "local://" = true :=
    hasPrefix_of_hasPrefix_append _ _ _ (by decide)
  have hne1 : "local://Music/" ++ r ≠ "local://" := str_ne_of_take 9 (by decide) (by decide)
  have hne2 : "local://Music/" ++ r ≠ "local://This PC/" := str_ne_of_take 9 (by decide) (by decide)
  have hne3 : "local://Music/" ++ r ≠ "local://This PC" := str_ne_of_take 9 (by decide) (by decide)
  have hnb0 : normalizeVirtualFolder "local://Desktop/" = "local://Desktop/" := by decide
  have hs0a : ¬("local://Music/" ++ r = "local://Desktop/" ∨ "local://Music/" ++ r = dropRight1 "local://Desktop/") :=
    not_or.mpr ⟨str_ne_of_take 11 (by decide) (by decide),
      str_ne_of_take 11 (by decide) (by decide)⟩
  have hs0b : strHasPrefix ("local://Music/" ++ r) "local://Desktop/" = false :=
    not_hasPrefix_append_of_take 11 (by decide) (by decide) (by decide)
  have hnb1 : normalizeVirtualFolder "local://Documents/" = "local://Documents/" := by decide
  have hs1a : ¬("local://Music/" ++ r = "local://Documents/" ∨ "local://Music/" ++ r = dropRight1 "local://Documents/") :=
    not_or.mpr ⟨str_ne_of_take 11 (by decide) (by decide),
      str_ne_of_take 11 (by decide) (by decide)⟩
  have hs1b : strHasPrefix ("local://Music/" ++ r) "local://Documents/" = false :=
    not_hasPrefix_append_of_take 11 (by decide) (by decide) (by decide)
  have hnb2 : normalizeVirtualFolder "local://Downloads/" = "local://Downloads/" := by decide
  have hs2a : ¬("local://Music/" ++ r = "local://Downloads/" ∨ "local://Music/" ++ r = dropRight1 "local://Downloads/") :=
    not_or.mpr ⟨str_ne_of_take 11 (by decide) (by decide),
      str_ne_of_take 11 (by decide) (by decide)⟩
  have hs2b : strHasPrefix ("local://Music/" ++ r) "local://Downloads/" = false :=
    not_hasPrefix_append_of_take 11 (by decide) (by decide) (by decide)
  have hb0 : normalizeVirtualFolder "local://Music/" = "local://Music/" := by decide
  have hown1 : ¬("local://Music/" ++ r = "local://Music/" ∨ "local://Music/" ++ r = dropRight1 "local://Music/") :=
    not_or.mpr ⟨append_ne_base hrl, append_ne_dropRight hrl⟩
  have hown2 : strHasPrefix ("local://Music/" ++ r) "local://Music/" = true := hasPrefix_append_self _ _
  have hdrop : strDrop ("local://Music/" ++ r) (("local://Music/" : String)).data.length = r := strDrop_append _ _
  have hfind : findSpecialMatch (endsWithSlash ("local://Music/" ++ r)) ("local://Music/" ++ r) (specialFolders homedir)
      = some (.entry (pathJoinList (pathJoin1 homedir "Music")
          ((splitOnChar '/' r).filter (· ≠ "")))
          (endsWithSlash ("local://Music/" ++ r)
            || ((splitOnChar '/' r).filter (· ≠ "")).isEmpty)
          "local://Music/") := by
    simp only [specialFolders, findSpecialMatch, hnb0, hs0a, hs0b, hnb1, hs1a, hs1b, hnb2, hs2a, hs2b, hb0, hown1, hown2, hdrop, Bool.false_eq_true, if_true, if_false]
  unfold resolveLocalVirtualPath
  rw [hsan, if_neg (fun hc => hc hpref), if_neg hne1, if_neg (not_or.mpr ⟨hne2, hne3⟩)]
  simp only [hfind]

/-- Resolution of a path nested under the `Pictures` special folder. -/
theorem resolve_pictures_nested (homedir : String) (aliasMap : List (String × String))
    (r : String) (hr : r ≠ "") (hb : pathSepChar ∉ r.data) :
    resolveLocalVirtualPath homedir aliasMap ("local://Pictures/" ++ r)
      = .ok (.entry (pathJoinList (pathJoin1 homedir "Pictures")
          ((splitOnChar '/' r).filter (· ≠ "")))
          (endsWithSlash ("local://Pictures/" ++ r)
            || ((splitOnChar '/' r).filter (· ≠ "")).isEmpty)
          "local://Pictures/") := by
  have hrl : 0 < r.data.length := str_data_length_pos r hr
  have hsan : sanitizeVirtualPath ("local://Pictures/" ++ r) = "local://Pictures/" ++ r :=
    sanitize_no_bs _ (no_bs_append (by decide) hb)
  have hpref : strHasPrefix ("local://Pictures/" ++ r) "local://" = true :=
    hasPrefix_of_hasPrefix_append _ _ _ (by decide)
  have hne1 : "local://Pictures/" ++ r ≠ "local://" := str_ne_of_take 9 (by decide) (by decide)
  have hne2 : "local://Pictures/" ++ r ≠ "local://This PC/" := str_ne_of_take 9 (by decide) (by decide)
  have hne3 : "local://Pictures/" ++ r ≠ "local://This PC" := str_ne_of_take 9 (by decide) (by decide)
  have hnb0 : normalizeVirtualFolder "local://Desktop/" = "local://Desktop/" := by decide
  have hs0a : ¬("local://Pictures/" ++ r = "local://Desktop/" ∨ "local://Pictures/" ++ r = dropRight1 "local://Desktop/") :=
    not_or.mpr ⟨str_ne_of_take 11 (by decide) (by decide),
      str_ne_of_take 11 (by decide) (by decide)⟩
  have hs0b : strHasPrefix ("local://Pictures/" ++ r) "local://Desktop/" = false :=
    not_hasPrefix_append_of_take 11 (by decide) (by decide) (by decide)
  have hnb1 : normalizeVirtualFolder "local://Documents/" = "local://Documents/" := by decide
  have hs1a : ¬("local://Pictures/" ++ r = "local://Documents/" ∨ "local://Pictures/" ++ r = dropRight1 "local://Documents/") :=
    not_or.mpr ⟨str_ne_of_take 11 (by decide) (by decide),
      str_ne_of_take 11 (by decide) (by decide)⟩
  have hs1b : strHasPrefix ("local://Pictures/" ++ r) "local://Documents/" = false :=
    not_hasPrefix_append_of_take 11 (by decide) (by decide) (by decide)
  have hnb2 : normalizeVirtualFolder "local://Downloads/" = "local://Downloads/" := by decide
  have hs2a : ¬("local://Pictures/" ++ r = "local://Downloads/" ∨ "local://Pictures/" ++ r = dropRight1 "local://Downloads/") :=
    not_or.mpr ⟨str_ne_of_take 11 (by decide) (by decide),
      str_ne_of_take 11 (by decide) (by decide)⟩
  have hs2b : strHasPrefix ("local://Pictures/" ++ r) "local://Downloads/" = false :=
    not_hasPrefix_append_of_take 11 (by decide) (by decide) (by decide)
  have hnb3 : normalizeVirtualFolder "local://Music/" = "local://Music/" := by decide
  have hs3a : ¬("local://Pictures/" ++ r = "local://Music/" ∨ "local://Pictures/" ++ r = dropRight1 "local://Music/") :=
    not_or.mpr ⟨str_ne_of_take 11 (by decide) (by decide),
      str_ne_of_take 11 (by decide) (by decide)⟩
  have hs3b : strHasPrefix ("local://Pictures/" ++ r) "local://Music/" = false :=
    not_hasPrefix_append_of_take 11 (by decide) (by decide) (by decide)
  have hb0 : normalizeVirtualFolder "local://Pictures/" = "local://Pictures/" := by decide
  have hown1 : ¬("local://Pictures/" ++ r = "local://Pictures/" ∨ "local://Pictures/" ++ r = dropRight1 "local://Pictures/") :=
    not_or.mpr ⟨append_ne_base hrl, append_ne_dropRight hrl⟩
  have hown2 : strHasPrefix ("local://Pictures/" ++ r) "local://Pictures/" = true := hasPrefix_append_self _ _
  have hdrop : strDrop ("local://Pictures/" ++ r) (("local://Pictures/" : String)).data.length = r := strDrop_append _ _
  have hfind : findSpecialMatch (endsWithSlash ("local://Pictures/" ++ r)) ("local://Pictures/" ++ r) (specialFolders homedir)
      = some (.entry (pathJoinList (pathJoin1 homedir "Pictures")
          ((splitOnChar '/' r).filter (· ≠ "")))
          (endsWithSlash ("local://Pictures/" ++ r)
            || ((splitOnChar '/' r).filter (· ≠ "")).isEmpty)
          "local://Pictures/") := by
    simp only [specialFolders, findSpecialMatch, hnb0, hs0a, hs0b, hnb1, hs1a, hs1b, hnb2, hs2a, hs2b, hnb3, hs3a, hs3b, hb0, hown1, hown2, hdrop, Bool.false_eq_true, if_true, if_false]
  unfold resolveLocalVirtualPath
  rw [hsan, if_neg (fun hc => hc hpref), if_neg hne1, if_neg (not_or.mpr ⟨hne2, hne3⟩)]
  simp only [hfind]

/-- Resolution of a path nested under the `Videos` special folder. -/
theorem resolve_videos_nested (homedir : String) (aliasMap : List (String × String))
    (r : String) (hr : r ≠ "") (hb : pathSepChar ∉ r.data) :
    resolveLocalVirtualPath homedir aliasMap ("local://Videos/" ++ r)
      = .ok (.entry (pathJoinList (pathJoin1 homedir "Videos")
          ((splitOnChar '/' r).filter (· ≠ "")))
          (endsWithSlash ("local://Videos/" ++ r)
            || ((splitOnChar '/' r).filter (· ≠ "")).isEmpty)
          "local://Videos/") := by
  have hrl : 0 < r.data.length := str_data_length_pos r hr
  have hsan : sanitizeVirtualPath ("local://Videos/" ++ r) = "local://Videos/" ++ r :=
    sanitize_no_bs _ (no_bs_append (by decide) hb)
  have hpref : strHasPrefix ("local://Videos/" ++ r) "local://" = true :=
    hasPrefix_of_hasPrefix_append _ _ _ (by decide)
  have hne1 : "local://Videos/" ++ r ≠ "local://" := str_ne_of_take 9 (by decide) (by decide)
  have hne2 : "local://Videos/" ++ r ≠ "local://This PC/" := str_ne_of_take 9 (by decide) (by decide)
  have hne3 : "local://Videos/" ++ r ≠ "local://This PC" := str_ne_of_take 9 (by decide) (by decide)
  have hnb0 : normalizeVirtualFolder "local://Desktop/" = "local://Desktop/" := by decide
  have hs0a : ¬("local://Videos/" ++ r = "local://Desktop/" ∨ "local://Videos/" ++ r = dropRight1 "local://Desktop/") :=
    not_or.mpr ⟨str_ne_of_take 11 (by decide) (by decide),
      str_ne_of_take 11 (by decide) (by decide)⟩
  have hs0b : strHasPrefix ("local://Videos/" ++ r) "local://Desktop/" = false :=
    not_hasPrefix_append_of_take 11 (by decide) (by decide) (by decide)
  have hnb1 : normalizeVirtualFolder "local://Documents/" = "local://Documents/" := by decide
  have hs1a : ¬("local://Videos/" ++ r = "local://Documents/" ∨ "local://Videos/" ++ r = dropRight1 "local://Documents/") :=
    not_or.mpr ⟨str_ne_of_take 11 (by decide) (by decide),
      str_ne_of_take 11 (by decide) (by decide)⟩
  have hs1b : strHasPrefix ("local://Videos/" ++ r) "local://Documents/" = false :=
    not_hasPrefix_append_of_take 11 (by decide) (by decide) (by decide)
  have hnb2 : normalizeVirtualFolder "local://Downloads/" = "local://Downloads/" := by decide
  have hs2a : ¬("local://Videos/" ++ r = "local://Downloads/" ∨ "local://Videos/" ++ r = dropRight1 "local://Downloads/") :=
    not_or.mpr ⟨str_ne_of_take 11 (by decide) (by decide),
      str_ne_of_take 11 (by decide) (by decide)⟩
  have hs2b : strHasPrefix ("local://Videos/" ++ r) "local://Downloads/" = false :=
    not_hasPrefix_append_of_take 11 (by decide) (by decide) (by decide)
  have hnb3 : normalizeVirtualFolder "local://Music/" = "local://Music/" := by decide
  have hs3a : ¬("local://Videos/" ++ r = "local://Music/" ∨ "local://Videos/" ++ r = dropRight1 "local://Music/") :=
    not_or.mpr ⟨str_ne_of_take 11 (by decide) (by decide),
      str_ne_of_take 11 (by decide) (by decide)⟩
  have hs3b : strHasPrefix ("local://Videos/" ++ r) "local://Music/" = false :=
    not_hasPrefix_append_of_take 11 (by decide) (by decide) (by decide)
  have hnb4 : normalizeVirtualFolder "local://Pictures/" = "local://Pictures/" := by decide
  have hs4a : ¬("local://Videos/" ++ r = "local://Pictures/" ∨ "local://Videos/" ++ r = dropRight1 "local://Pictures/") :=
    not_or.mpr ⟨str_ne_of_take 11 (by decide) (by decide),
      str_ne_of_take 11 (by decide) (by decide)⟩
  have hs4b : strHasPrefix ("local://Videos/" ++ r) "local://Pictures/" = false :=
    not_hasPrefix_append_of_take 11 (by decide) (by decide) (by decide)
  have hb0 : normalizeVirtualFolder "local://Videos/" = "local://Videos/" := by decide
  have hown1 : ¬("local://Videos/" ++ r = "local://Videos/" ∨ "local://Videos/" ++ r = dropRight1 "local://Videos/") :=
    not_or.mpr ⟨append_ne_base hrl, append_ne_dropRight hrl⟩
  have hown2 : strHasPrefix ("local://Videos/" ++ r) "local://Videos/" = true := hasPrefix_append_self _ _
  have hdrop : strDrop ("local://Videos/" ++ r) (("local://Videos/" : String)).data.length = r := strDrop_append _ _
  have hfind : findSpecialMatch (endsWithSlash ("local://Videos/" ++ r)) ("local://Videos/" ++ r) (specialFolders homedir)
      = some (.entry (pathJoinList (pathJoin1 homedir "Videos")
          ((splitOnChar '/' r).filter (· ≠ "")))
          (endsWithSlash ("local://Videos/" ++ r)
            || ((splitOnChar '/' r).filter (· ≠ "")).isEmpty)
          "local://Videos/") := by
    simp only [specialFolders, findSpecialMatch, hnb0, hs0a, hs0b, hnb1, hs1a, hs1b, hnb2, hs2a, hs2b, hnb3, hs3a, hs3b, hnb4, hs4a, hs4b, hb0, hown1, hown2, hdrop, Bool.false_eq_true, if_true, if_false]
  unfold resolveLocalVirtualPath
  rw [hsan, if_neg (fun hc => hc hpref), if_neg hne1, if_neg (not_or.mpr ⟨hne2, hne3⟩)]
  simp only [hfind]

/-- Resolution of a path nested under a drive of `This PC`. -/
theorem resolve_drive_nested (homedir : String) (aliasMap : List (String × String))
    (name letter r : String)
    (hn : name ≠ "") (hnb : pathSepChar ∉ name.data) (hns : '/' ∉ name.data)
    (hb : pathSepChar ∉ r.data)
    (hdl : ensureDriveLetter aliasMap name = some letter) :
    resolveLocalVirtualPath homedir aliasMap ("local://This PC/" ++ (name ++ ("/" ++ r)))
      = .ok (.entry (pathJoinList (letter ++ pathSep)
          ((splitOnChar '/' r).filter (· ≠ "")))
          (endsWithSlash ("local://This PC/" ++ (name ++ ("/" ++ r)))
            || ((splitOnChar '/' r).filter (· ≠ "")).isEmpty)
          ("local://This PC/" ++ name ++ "/")) := by
  have hrl : 0 < (name ++ ("/" ++ r)).data.length := by
    rw [String.data_append, List.length_append]
    have h1 : 0 < ("/" ++ r).data.length := by
      rw [String.data_append, List.length_append]
      have h2 : (("/" : String)).data.length = 1 := by decide
      omega
    omega
  have hsan : sanitizeVirtualPath ("local://This PC/" ++ (name ++ ("/" ++ r))) = "local://This PC/" ++ (name ++ ("/" ++ r)) :=
    sanitize_no_bs _ (no_bs_append (by decide) (no_bs_append hnb (no_bs_append (by decide) hb)))
  have hpref : strHasPrefix ("local://This PC/" ++ (name ++ ("/" ++ r))) "local://" = true :=
    hasPrefix_of_hasPrefix_append _ _ _ (by decide)
  have hne1 : "local://This PC/" ++ (name ++ ("/" ++ r)) ≠ "local://" := str_ne_of_take 9 (by decide) (by decide)
  have hne2 : "local://This PC/" ++ (name ++ ("/" ++ r)) ≠ "local://This PC/" := append_ne_base hrl
  have hne3 : "local://This PC/" ++ (name ++ ("/" ++ r)) ≠ "local://This PC" := by
    apply str_ne_of_data_length
    rw [String.data_append, List.length_append]
    have h15 : (("local://This PC" : String)).data.length = 15 := by decide
    have h16 : (("local://This PC/" : String)).data.length = 16 := by decide
    omega
  have hnb0 : normalizeVirtualFolder "local://Desktop/" = "local://Desktop/" := by decide
  have hs0a : ¬("local://This PC/" ++ (name ++ ("/" ++ r)) = "local://Desktop/" ∨ "local://This PC/" ++ (name ++ ("/" ++ r)) = dropRight1 "local://Desktop/") :=
    not_or.mpr ⟨str_ne_of_take 9 (by decide) (by decide),
      str_ne_of_take 9 (by decide) (by decide)⟩
  have hs0b : strHasPrefix ("local://This PC/" ++ (name ++ ("/" ++ r))) "local://Desktop/" = false :=
    not_hasPrefix_append_of_take 9 (by decide) (by decide) (by decide)
  have hnb1 : normalizeVirtualFolder "local://Documents/" = "local://Documents/" := by decide
  have hs1a : ¬("local://This PC/" ++ (name ++ ("/" ++ r)) = "local://Documents/" ∨ "local://This PC/" ++ (name ++ ("/" ++ r)) = dropRight1 "local://Documents/") :=
    not_or.mpr ⟨str_ne_of_take 9 (by decide) (by decide),
      str_ne_of_take 9 (by decide) (by decide)⟩
  have hs1b : strHasPrefix ("local://This PC/" ++ (name ++ ("/" ++ r))) "local://Documents/" = false :=
    not_hasPrefix_append_of_take 9 (by decide) (by decide) (by decide)
  have hnb2 : normalizeVirtualFolder "local://Downloads/" = "local://Downloads/" := by decide
  have hs2a : ¬("local://This PC/" ++ (name ++ ("/" ++ r)) = "local://Downloads/" ∨ "local://This PC/" ++ (name ++ ("/" ++ r)) = dropRight1 "local://Downloads/") :=
    not_or.mpr ⟨str_ne_of_take 9 (by decide) (by decide),
      str_ne_of_take 9 (by decide) (by decide)⟩
  have hs2b : strHasPrefix ("local://This PC/" ++ (name ++ ("/" ++ r))) "local://Downloads/" = false :=
    not_hasPrefix_append_of_take 9 (by decide) (by decide) (by decide)
  have hnb3 : normalizeVirtualFolder "local://Music/" = "local://Music/" := by decide
  have hs3a : ¬("local://This PC/" ++ (name ++ ("/" ++ r)) = "local://Music/" ∨ "local://This PC/" ++ (name ++ ("/" ++ r)) = dropRight1 "local://Music/") :=
    not_or.mpr ⟨str_ne_of_take 9 (by decide) (by decide),
      str_ne_of_take 9 (by decide) (by decide)⟩
  have hs3b : strHasPrefix ("local://This PC/" ++ (name ++ ("/" ++ r))) "local://Music/" = false :=
    not_hasPrefix_append_of_take 9 (by decide) (by decide) (by decide)
  have hnb4 : normalizeVirtualFolder "local://Pictures/" = "local://Pictures/" := by decide
  have hs4a : ¬("local://This PC/" ++ (name ++ ("/" ++ r)) = "local://Pictures/" ∨ "local://This PC/" ++ (name ++ ("/" ++ r)) = dropRight1 "local://Pictures/") :=
    not_or.mpr ⟨str_ne_of_take 9 (by decide) (by decide),
      str_ne_of_take 9 (by decide) (by decide)⟩
  have hs4b : strHasPrefix ("local://This PC/" ++ (name ++ ("/" ++ r))) "local://Pictures/" = false :=
    not_hasPrefix_append_of_take 9 (by decide) (by decide) (by decide)
  have hnb5 : normalizeVirtualFolder "local://Videos/" = "local://Videos/" := by decide
  have hs5a : ¬("local://This PC/" ++ (name ++ ("/" ++ r)) = "local://Videos/" ∨ "local://This PC/" ++ (name ++ ("/" ++ r)) = dropRight1 "local://Videos/") :=
    not_or.mpr ⟨str_ne_of_take 9 (by decide) (by decide),
      str_ne_of_take 9 (by decide) (by decide)⟩
  have hs5b : strHasPrefix ("local://This PC/" ++ (name ++ ("/" ++ r))) "local://Videos/" = false :=
    not_hasPrefix_append_of_take 9 (by decide) (by decide) (by decide)
  have hfindnone : findSpecialMatch (endsWithSlash ("local://This PC/" ++ (name ++ ("/" ++ r)))) ("local://This PC/" ++ (name ++ ("/" ++ r)))
      (specialFolders homedir) = none := by
    simp only [specialFolders, findSpecialMatch, hnb0, hs0a, hs0b, hnb1, hs1a, hs1b, hnb2, hs2a, hs2b, hnb3, hs3a, hs3b, hnb4, hs4a, hs4b, hnb5, hs5a, hs5b, Bool.false_eq_true, if_true, if_false]
  have hp : strHasPrefix ("local://This PC/" ++ (name ++ ("/" ++ r))) "local://This PC/" = true := hasPrefix_append_self _ _
  have hafter : ("local://This PC/" ++ (name ++ ("/" ++ r))).data.drop 16 = name.data ++ ('/' :: r.data) := by
    rw [String.data_append]
    have h16 : (("local://This PC/" : String)).data.length = 16 := by decide
    rw [← h16, List.drop_left, String.data_append, String.data_append]
    rfl
  have htake : (name.data ++ ('/' :: r.data)).takeWhile (fun c => c ≠ '/') = name.data :=
    takeWhile_ne_append '/' _ _ hns
  have hdrop2 : (name.data ++ ('/' :: r.data)).dropWhile (fun c => c ≠ '/') = '/' :: r.data :=
    dropWhile_ne_append '/' _ _ hns
  have hnem : ¬ (name.data = ([] : List Char)) := by
    intro h0
    exact hn (by rw [← string_eta name, h0])
  have hdm : driveMatch ("local://This PC/" ++ (name ++ ("/" ++ r))) = some (name, r) := by
    simp only [driveMatch, hp, if_true, hafter, htake, hdrop2, hnem, if_false, Bool.false_eq_true]
  unfold resolveLocalVirtualPath
  rw [hsan, if_neg (fun hc => hc hpref), if_neg hne1, if_neg (not_or.mpr ⟨hne2, hne3⟩)]
  simp only [hfindnone, hdm, hdl]

/-- Claim C10: the resolver discards empty path segments — for a path
nested under a special folder or under a drive of `This PC`, two
remainders with the same list of nonempty segments (e.g. with extra
consecutive `/` separators inserted) resolve to concrete entries with
the same real filesystem path. -/
theorem C10_empty_segments_discarded
    (homedir : String) (aliasMap : List (String × String)) (r1 r2 : String)
    (hr1 : r1 ≠ "") (hr2 : r2 ≠ "")
    (hb1 : pathSepChar ∉ r1.data) (hb2 : pathSepChar ∉ r2.data)
    (hseg : (splitOnChar '/' r1).filter (· ≠ "") = (splitOnChar '/' r2).filter (· ≠ "")) :
    (∀ f ∈ specialFolders homedir, ∃ fp d1 d2,
        resolveLocalVirtualPath homedir aliasMap (f.virtual ++ r1)
          = .ok (.entry fp d1 f.virtual)
      ∧ resolveLocalVirtualPath homedir aliasMap (f.virtual ++ r2)
          = .ok (.entry fp d2 f.virtual))
    ∧ (∀ name letter, name ≠ "" → pathSepChar ∉ name.data → '/' ∉ name.data →
        ensureDriveLetter aliasMap name = some letter → ∃ fp d1 d2,
        resolveLocalVirtualPath homedir aliasMap
            ("local://This PC/" ++ (name ++ ("/" ++ r1)))
          = .ok (.entry fp d1 ("local://This PC/" ++ name ++ "/"))
      ∧ resolveLocalVirtualPath homedir aliasMap
            ("local://This PC/" ++ (name ++ ("/" ++ r2)))
          = .ok (.entry fp d2 ("local://This PC/" ++ name ++ "/"))) := by
  constructor
  · intro f hf
    simp only [specialFolders, List.mem_cons, List.not_mem_nil, or_false] at hf
    rcases hf with rfl | rfl | rfl | rfl | rfl | rfl
    · refine ⟨pathJoinList (pathJoin1 homedir "Desktop") ((splitOnChar '/' r1).filter (· ≠ "")),
        endsWithSlash ("local://Desktop/" ++ r1) || ((splitOnChar '/' r1).filter (· ≠ "")).isEmpty,
        endsWithSlash ("local://Desktop/" ++ r2) || ((splitOnChar '/' r2).filter (· ≠ "")).isEmpty,
        resolve_desktop_nested homedir aliasMap r1 hr1 hb1, ?_⟩
      rw [hseg]
      exact resolve_desktop_nested homedir aliasMap r2 hr2 hb2
    · refine ⟨pathJoinList (pathJoin1 homedir "Documents") ((splitOnChar '/' r1).filter (· ≠ "")),
        endsWithSlash ("local://Documents/" ++ r1) || ((splitOnChar '/' r1).filter (· ≠ "")).isEmpty,
        endsWithSlash ("local://Documents/" ++ r2) || ((splitOnChar '/' r2).filter (· ≠ "")).isEmpty,
        resolve_documents_nested homedir aliasMap r1 hr1 hb1, ?_⟩
      rw [hseg]
      exact resolve_documents_nested homedir aliasMap r2 hr2 hb2
    · refine ⟨pathJoinList (pathJoin1 homedir "Downloads") ((splitOnChar '/' r1).filter (· ≠ "")),
        endsWithSlash ("local://Downloads/" ++ r1) || ((splitOnChar '/' r1).filter (· ≠ "")).isEmpty,
        endsWithSlash ("local://Downloads/" ++ r2) || ((splitOnChar '/' r2).filter (· ≠ "")).isEmpty,
        resolve_downloads_nested homedir aliasMap r1 hr1 hb1, ?_⟩
      rw [hseg]
      exact resolve_downloads_nested homedir aliasMap r2 hr2 hb2
    · refine ⟨pathJoinList (pathJoin1 homedir "Music") ((splitOnChar '/' r1).filter (· ≠ "")),
        endsWithSlash ("local://Music/" ++ r1) || ((splitOnChar '/' r1).filter (· ≠ "")).isEmpty,
        endsWithSlash ("local://Music/" ++ r2) || ((splitOnChar '/' r2).filter (· ≠ "")).isEmpty,
        resolve_music_nested homedir aliasMap r1 hr1 hb1, ?_⟩
      rw [hseg]
      exact resolve_music_nested homedir aliasMap r2 hr2 hb2
    · refine ⟨pathJoinList (pathJoin1 homedir "Pictures") ((splitOnChar '/' r1).filter (· ≠ "")),
        endsWithSlash ("local://Pictures/" ++ r1) || ((splitOnChar '/' r1).filter (· ≠ "")).isEmpty,
        endsWithSlash ("local://Pictures/" ++ r2) || ((splitOnChar '/' r2).filter (· ≠ "")).isEmpty,
        resolve_pictures_nested homedir aliasMap r1 hr1 hb1, ?_⟩
      rw [hseg]
      exact resolve_pictures_nested homedir aliasMap r2 hr2 hb2
    · refine ⟨pathJoinList (pathJoin1 homedir "Videos") ((splitOnChar '/' r1).filter (· ≠ "")),
        endsWithSlash ("local://Videos/" ++ r1) || ((splitOnChar '/' r1).filter (· ≠ "")).isEmpty,
        endsWithSlash ("local://Videos/" ++ r2) || ((splitOnChar '/' r2).filter (· ≠ "")).isEmpty,
        resolve_videos_nested homedir aliasMap r1 hr1 hb1, ?_⟩
      rw [hseg]
      exact resolve_videos_nested homedir aliasMap r2 hr2 hb2
  · intro name letter hn hnb hns hdl
    refine ⟨pathJoinList (letter ++ pathSep) ((splitOnChar '/' r1).filter (· ≠ "")),
      endsWithSlash ("local://This PC/" ++ (name ++ ("/" ++ r1)))
        || ((splitOnChar '/' r1).filter (· ≠ "")).isEmpty,
      endsWithSlash ("local://This PC/" ++ (name ++ ("/" ++ r2)))
        || ((splitOnChar '/' r2).filter (· ≠ "")).isEmpty,
      resolve_drive_nested homedir aliasMap name letter r1 hn hnb hns hb1 hdl, ?_⟩
    rw [hseg]
    exact resolve_drive_nested homedir aliasMap name letter r2 hn hnb hns hb2 hdl

/-- Witness for C10 at a concrete input: the remainders `a/b` and
`a//b/` have the same nonempty segments. -/
theorem C10_empty_segments_discarded_witness :
    ("a/b" ≠ "") ∧ ("a//b/" ≠ "")
    ∧ (pathSepChar ∉ "a/b".data) ∧ (pathSepChar ∉ "a//b/".data)
    ∧ ((splitOnChar '/' "a/b").filter (· ≠ "") = (splitOnChar '/' "a//b/").filter (· ≠ ""))
    ∧ ((∀ f ∈ specialFolders "C:\\U", ∃ fp d1 d2,
        resolveLocalVirtualPath "C:\\U" [] (f.virtual ++ "a/b")
          = .ok (.entry fp d1 f.virtual)
      ∧ resolveLocalVirtualPath "C:\\U" [] (f.virtual ++ "a//b/")
          = .ok (.entry fp d2 f.virtual))
    ∧ (∀ name letter, name ≠ "" → pathSepChar ∉ name.data → '/' ∉ name.data →
        ensureDriveLetter [] name = some letter → ∃ fp d1 d2,
        resolveLocalVirtualPath "C:\\U" []
            ("local://This PC/" ++ (name ++ ("/" ++ "a/b")))
          = .ok (.entry fp d1 ("local://This PC/" ++ name ++ "/"))
      ∧ resolveLocalVirtualPath "C:\\U" []
            ("local://This PC/" ++ (name ++ ("/" ++ "a//b/")))
          = .ok (.entry fp d2 ("local://This PC/" ++ name ++ "/")))) :=
  ⟨by decide, by decide, by decide, by decide, by decide,
    C10_empty_segments_discarded "C:\\U" [] "a/b" "a//b/"
      (by decide) (by decide) (by decide) (by decide) (by decide)⟩

end OmniExplorer
